import Mathlib

/-!
Verification of the rv_asm_gen repository: a shallow embedding of the
register pool (`riscv/register.py`), the instruction catalog
(`riscv/instruction.py`), the CSR and label tables (`riscv/csr.py`,
`riscv/label.py`) and the assembler driver (`riscv/assembler.py`),
followed by theorems settling the specification's claims.

Python objects with mutable flags are modelled by an arena (`Store`,
a list of register records addressed by stable index); a register pool
(`Registers.registers`, a Python dict) is an association list from
architectural name to arena index, so that two pools holding the same
index alias the same mutable record, exactly as two Python dicts holding
the same object reference do.  Python's seeded `random.Random` engine and
the ambient global `random` module are modelled as explicit streams of
naturals consumed by each drawing operation.
-/

namespace RvGen

instance {ε α : Type} [DecidableEq ε] [DecidableEq α] : DecidableEq (Except ε α)
  | Except.error e1, Except.error e2 => decidable_of_iff (e1 = e2) (by simp)
  | Except.error _, Except.ok _ => Decidable.isFalse (by simp)
  | Except.ok _, Except.error _ => Decidable.isFalse (by simp)
  | Except.ok a1, Except.ok a2 => decidable_of_iff (a1 = a2) (by simp)

/-- `RegisterType` enum from `riscv/register.py` (`X = 1, F = 2`). -/
inductive RegisterType where
  | X
  | F
deriving DecidableEq

/-- `RegisterSaveType` enum from `riscv/register.py`. -/
inductive RegisterSaveType where
  | Caller
  | Callee
  | System
deriving DecidableEq

/-- A register record: the fields set by `Register.__init__`. -/
structure Register where
  name : String
  abi_name : String
  type : RegisterType
  saved_by : RegisterSaveType
  is_reserved : Bool
  is_in_use : Bool
deriving DecidableEq

instance : Inhabited Register :=
  ⟨⟨"x0", "x0", RegisterType.X, RegisterSaveType.Caller, false, false⟩⟩

/-- Python `s.startswith(pre)`, computed on the character lists. -/
def strStartsWith (s pre : String) : Bool :=
  pre.toList.isPrefixOf s.toList

/-- Python `s.isdigit()` (ASCII fragment: the repository only ever passes
ASCII names; Python would additionally accept non-ASCII digit codepoints). -/
def pyIsDigit (s : String) : Bool :=
  !s.toList.isEmpty && s.toList.all Char.isDigit

/-- `Register.__init__` from `riscv/register.py`: validates the name
(`startswith("x")` or `startswith("f")`, and `name[1:].isdigit()`),
defaults the ABI name to the architectural name when the given one is
falsy (Python `if abi_name:` treats both `None` and `""` as false), and
records the remaining attributes.  The `isinstance` checks on `type` and
`saved_by` are vacuous here because the embedding is typed.  A failed
validation is Python's `raise ValueError(f"Invalid register name: {name}")`. -/
def Register.init (name : String) (abi_name : Option String)
    (type : RegisterType) (saved_by : RegisterSaveType)
    (is_reserved is_in_use : Bool) : Except String Register :=
  if !(strStartsWith name "x" || strStartsWith name "f") || !pyIsDigit (name.drop 1) then
    Except.error ("Invalid register name: " ++ name)
  else
    Except.ok ⟨name,
      (match abi_name with
       | none => name
       | some a => if a = "" then name else a),
      type, saved_by, is_reserved, is_in_use⟩

/-- The arena of register records; a `Nat` index is a Python object reference. -/
abbrev Store := List Register

/-- Dereference an arena index (total; out-of-range reads give the default
record, a case no reachable pool produces). -/
def Store.read (store : Store) (id : Nat) : Register :=
  store.getD id default

/-- A register pool's `registers` dict: insertion-ordered association list
from key to arena index, with CPython dict semantics (overwriting a key
keeps its position, new keys append). -/
abbrev Pool := List (String × Nat)

/-- Python `d[k] = v` on an insertion-ordered dict. -/
def dictInsert {α : Type} (p : List (String × α)) (k : String) (v : α) :
    List (String × α) :=
  if p.any (fun e => e.1 = k) then
    p.map (fun e => if e.1 = k then (k, v) else e)
  else
    p ++ [(k, v)]

/-- Python `d.get(k, None)`. -/
def dictGet {α : Type} (p : List (String × α)) (k : String) : Option α :=
  (p.find? (fun e => e.1 = k)).map (fun e => e.2)

/-- Python `list(d.values())`. -/
def dictValues {α : Type} (p : List (String × α)) : List α :=
  p.map (fun e => e.2)

/-- `{reg.name: reg for reg in subset}` from `Registers.filter`: rebuild a
dict keyed by architectural name from a list of register references. -/
def dictOfIds (store : Store) (ids : List Nat) : Pool :=
  ids.foldl (fun p id => dictInsert p (Store.read store id).name id) []

/-- A deterministic random engine: a stream of naturals and a cursor.
Models both a seeded `random.Random(seed)` instance and the ambient
global `random` module (each is one independent stream). -/
structure Eng where
  stream : Nat → Nat
  pos : Nat

/-- Draw the next raw natural. -/
def Eng.next (e : Eng) : Nat × Eng :=
  (e.stream e.pos, ⟨e.stream, e.pos + 1⟩)

/-- `engine.randint(lo, hi)` (inclusive range). -/
def Eng.randint (e : Eng) (lo hi : Nat) : Nat × Eng :=
  let pr := Eng.next e
  (lo + pr.1 % (hi - lo + 1), pr.2)

/-- `engine.choice(xs)`: the index drawn into a list of length `len`. -/
def Eng.choiceIdx (e : Eng) (len : Nat) : Nat × Eng :=
  let pr := Eng.next e
  (pr.1 % len, pr.2)

/-- One optional field predicate of `Registers.filter`: `None` keeps the
subset, a supplied value keeps the registers whose field equals it. -/
def fieldFilter {β : Type} [DecidableEq β] (store : Store) (crit : Option β)
    (read : Register → β) (ids : List Nat) : List Nat :=
  match crit with
  | none => ids
  | some b => ids.filter (fun id => decide (read (Store.read store id) = b))

/-- `Registers.filter(type, saved_by, is_reserved, is_in_use)` from
`riscv/register.py`: chains the four optional field predicates over
`self.registers.values()`, raises
`ValueError("No registers matching the filter were found")` when the
subset is empty, and otherwise rebuilds a new pool dict keyed by register
name over the same arena (the new pool holds the same references). -/
def Registers.filter (store : Store) (pool : Pool)
    (type : Option RegisterType) (saved_by : Option RegisterSaveType)
    (is_reserved : Option Bool) (is_in_use : Option Bool) :
    Except String Pool :=
  let subset :=
    fieldFilter store is_in_use (fun r => r.is_in_use)
      (fieldFilter store is_reserved (fun r => r.is_reserved)
        (fieldFilter store saved_by (fun r => r.saved_by)
          (fieldFilter store type (fun r => r.type) (dictValues pool))))
  if subset.isEmpty then
    Except.error "No registers matching the filter were found"
  else
    Except.ok (dictOfIds store subset)

/-- The flag mutation performed on the register chosen by
`pick_register`: `chosen_reg.is_in_use = True`, and
`chosen_reg.is_reserved = True` when `reserve` is set. -/
def Register.markPicked (r : Register) (reserve : Bool) : Register :=
  ⟨r.name, r.abi_name, r.type, r.saved_by,
    if reserve then true else r.is_reserved, true⟩

/-- `Registers.pick_register` from `riscv/register.py`.  The Python
signature defaults `is_reserved` to `False` (not `None`) and `is_in_use`
to `None`.  It filters by the given predicates (re-raising any failure as
`ValueError("No appropriate register found")`), prefers the sub-filter
`is_in_use=False` and falls back to the whole filtered set when that
sub-filter raises `ValueError`, draws `random_engine.choice` from the
resulting list, marks the chosen register in use (and reserved when
`reserve` is set) and returns it.  `choice` on an empty list would raise
`IndexError`; that branch is unreachable because `filter` never returns
an empty pool. -/
def Registers.pick_register (store : Store) (pool : Pool) (eng : Eng)
    (type : Option RegisterType) (saved_by : Option RegisterSaveType)
    (is_reserved : Option Bool) (is_in_use : Option Bool)
    (reserve : Bool) : Except String (Nat × Store × Eng) :=
  match Registers.filter store pool type saved_by is_reserved is_in_use with
  | Except.error _ => Except.error "No appropriate register found"
  | Except.ok regs =>
    let regs_list :=
      match Registers.filter store regs none none none (some false) with
      | Except.ok unused => dictValues unused
      | Except.error _ => dictValues regs
    if regs_list.isEmpty then
      Except.error "IndexError"
    else
      let pr := Eng.choiceIdx eng regs_list.length
      let id := regs_list.getD pr.1 0
      let r2 := Register.markPicked (Store.read store id) reserve
      Except.ok (id, store.set id r2, pr.2)

/-- `Registers.get_register` from `riscv/register.py`: dict lookup by
architectural name first, then a linear scan of the values comparing
`abi_name`, returning `None` when neither matches. -/
def Registers.get_register (store : Store) (pool : Pool) (name : String) :
    Option Nat :=
  match dictGet pool name with
  | some id => some id
  | none =>
    (dictValues pool).find? (fun id => decide ((Store.read store id).abi_name = name))

/-- `Registers.reserve_register` from `riscv/register.py`: resolves the
name through `get_register`, raises
`ValueError(f"Invalid register name: {name}")` when that returns `None`,
and otherwise sets `is_reserved = True` on the found register. -/
def Registers.reserve_register (store : Store) (pool : Pool) (name : String) :
    Except String (Nat × Store) :=
  match Registers.get_register store pool name with
  | none => Except.error ("Invalid register name: " ++ name)
  | some id =>
    let r := Store.read store id
    Except.ok (id, store.set id ⟨r.name, r.abi_name, r.type, r.saved_by, true, r.is_in_use⟩)

/-- `Registers.reset_usage`: clears both flags on every register of the pool. -/
def Registers.reset_usage (store : Store) (pool : Pool) : Store :=
  (dictValues pool).foldl
    (fun s id =>
      let r := Store.read s id
      s.set id ⟨r.name, r.abi_name, r.type, r.saved_by, false, false⟩)
    store

/-- The registers created by `Registers.__init__` when no dict is given,
in creation order (which is arena-index order).  The index `i` loops are
transcribed range for range; note that the final `for i in range(8, 32)`
loop overwrites the dict entries `f10`..`f17` that the previous loop
created, exactly as in the source. -/
def defaultRegCreations : List Register :=
  [⟨"x0", "zero", RegisterType.X, RegisterSaveType.Caller, true, false⟩,
   ⟨"x1", "ra", RegisterType.X, RegisterSaveType.Caller, true, false⟩,
   ⟨"x2", "sp", RegisterType.X, RegisterSaveType.System, true, false⟩,
   ⟨"x3", "gp", RegisterType.X, RegisterSaveType.System, true, false⟩,
   ⟨"x4", "tp", RegisterType.X, RegisterSaveType.System, true, false⟩]
  ++ (List.range' 5 3).map (fun i =>
      ⟨s!"x{i}", s!"t{i-5}", RegisterType.X, RegisterSaveType.Caller, false, false⟩)
  ++ (List.range' 8 2).map (fun i =>
      ⟨s!"x{i}", s!"s{i-8}", RegisterType.X, RegisterSaveType.Callee, false, false⟩)
  ++ (List.range' 10 8).map (fun i =>
      ⟨s!"x{i}", s!"a{i-10}", RegisterType.X, RegisterSaveType.Caller, false, false⟩)
  ++ (List.range' 18 10).map (fun i =>
      ⟨s!"x{i}", s!"s{i-8}", RegisterType.X, RegisterSaveType.Callee, false, false⟩)
  ++ (List.range' 28 4).map (fun i =>
      ⟨s!"x{i}", s!"t{i-23}", RegisterType.X, RegisterSaveType.Caller, false, false⟩)
  ++ (List.range 8).map (fun i =>
      ⟨s!"f{i}", s!"ft{i}", RegisterType.F, RegisterSaveType.Caller, false, false⟩)
  ++ (List.range' 10 8).map (fun i =>
      ⟨s!"f{i}", s!"fa{i-10}", RegisterType.F, RegisterSaveType.Caller, false, false⟩)
  ++ (List.range' 8 24).map (fun i =>
      ⟨s!"f{i}", s!"fs{i-8}", RegisterType.F, RegisterSaveType.Callee, false, false⟩)

/-- The arena backing the default pool: every record ever created by
`Registers.__init__`, including the eight `fa*` records whose dict slots
are later overwritten (in Python those objects become unreachable). -/
def defaultStore : Store := defaultRegCreations

/-- The default pool dict: `self.registers[name] = reg` applied in
creation order, i.e. the dict fold of the creation list. -/
def defaultPool : Pool :=
  dictOfIds defaultStore (List.range defaultStore.length)

/-- A CSR record from `riscv/csr.py`. -/
structure CSRRegister where
  name : String
  description : String
  address : Nat
deriving DecidableEq

/-- A label record from `riscv/label.py`. -/
structure Label where
  name : String
  address : Option Nat
  comment : Option String
deriving DecidableEq

/-- `Label.is_valid_name`: the first character must not be a digit.
(Python would raise `IndexError` on the empty string; the repository only
ever validates nonempty names.) -/
def Label.is_valid_name (name : String) : Bool :=
  !(name.toList.headD 'a').isDigit

/-- `Label.__init__`: validates the name, else raises
`ValueError(f"Invalid label name: {name}")`. -/
def Label.init (name : String) (address : Option Nat) (comment : Option String) :
    Except String Label :=
  if !Label.is_valid_name name then
    Except.error ("Invalid label name: " ++ name)
  else
    Except.ok ⟨name, address, comment⟩

/-- A Python runtime value as passed to `InstructionDefinition.generate`:
the operand universe the repository actually produces or that the claims
quantify over (register / CSR / label objects, ints, strings, tuples). -/
inductive Value where
  | reg (r : Register)
  | csr (c : CSRRegister)
  | lab (l : Label)
  | intv (n : Int)
  | strv (s : String)
  | tup (xs : List Value)

/-- Decimal rendering of a Python int (`str(n)`). -/
def pyIntStr (n : Int) : String :=
  if n < 0 then "-" ++ Nat.repr n.natAbs else Nat.repr n.toNat

/-- Lowercase hexadecimal digits of a natural, as Python's `hex` emits
after the prefix. -/
def natHexStr (n : Nat) : String :=
  String.mk (Nat.toDigits 16 n)

/-- Python `hex(n)`: `0x`-prefixed lowercase hexadecimal; negative values
carry a leading minus sign before the prefix. -/
def pyHex (n : Int) : String :=
  if n < 0 then "-0x" ++ natHexStr n.natAbs else "0x" ++ natHexStr n.toNat

/-- `str.zfill`-style left pad used by the `{:03x}` format of
`CSRRegister.__str__`. -/
def padHex3 (n : Nat) : String :=
  let s := natHexStr n
  if s.length ≥ 3 then s else String.mk (List.replicate (3 - s.length) '0') ++ s

/-- `RegisterType(...).name` as printed by `Register.__str__`. -/
def RegisterType.pyName : RegisterType → String
  | RegisterType.X => "X"
  | RegisterType.F => "F"

/-- `RegisterSaveType(...).name` as printed by `Register.__str__`. -/
def RegisterSaveType.pyName : RegisterSaveType → String
  | RegisterSaveType.Caller => "Caller"
  | RegisterSaveType.Callee => "Callee"
  | RegisterSaveType.System => "System"

/-- `Register.__str__` from `riscv/register.py`. -/
def Register.pyStr (r : Register) : String :=
  RegisterType.pyName r.type ++ ": " ++ r.name ++ "(" ++ r.abi_name ++ ")\n"
  ++ "Saved By: " ++ RegisterSaveType.pyName r.saved_by ++ "\n"
  ++ "Reserved: " ++ (if r.is_reserved then "Yes" else "No") ++ "\n"
  ++ "In Use: " ++ (if r.is_in_use then "Yes" else "No") ++ "\n"

/-- `CSRRegister.__str__` from `riscv/csr.py`. -/
def CSRRegister.pyStr (c : CSRRegister) : String :=
  c.name ++ " (0x" ++ padHex3 c.address ++ "): " ++ c.description

mutual

/-- Python `repr(v)` for the value universe.  `Register` and
`CSRRegister` define no `__repr__`, so Python falls back to the
address-dependent `<... object at 0x...>` default; that case (and the
`Label.__repr__` crash on a `None` address) is modelled by a fixed
placeholder — no claim exercises `repr` of those values, it is only
reachable through `str` of a nested tuple. -/
def pyReprV : Value → String
  | Value.reg _ => "<Register object>"
  | Value.csr _ => "<CSRRegister object>"
  | Value.lab l =>
      match l.address with
      | some a => "<Label(name=" ++ l.name ++ ", address=" ++ pyHex (Int.ofNat a)
          ++ ", comment=" ++ (match l.comment with | some c => c | none => "None") ++ ")>"
      | none => "<Label repr TypeError>"
  | Value.intv n => pyIntStr n
  | Value.strv s => "\x27" ++ s ++ "\x27"
  | Value.tup [] => "()"
  | Value.tup [x] => "(" ++ pyReprV x ++ ",)"
  | Value.tup (x :: y :: rest) => "(" ++ pyReprV x ++ ", " ++ pyTupBody (y :: rest) ++ ")"

/-- Comma-joined `repr`s of the remaining tuple elements. -/
def pyTupBody : List Value → String
  | [] => ""
  | [x] => pyReprV x
  | x :: y :: rest => pyReprV x ++ ", " ++ pyTupBody (y :: rest)

end

/-- Python `str(tuple)`: parenthesised comma-joined `repr`s, with the
trailing comma of a 1-tuple. -/
def pyTupStr (xs : List Value) : String :=
  pyReprV (Value.tup xs)

/-- Python `str(v)` for the value universe, as interpolated by the
f-string `f"{offset}({base_register.abi_name})"`. -/
def pyStrV : Value → String
  | Value.reg r => Register.pyStr r
  | Value.csr c => CSRRegister.pyStr c
  | Value.lab l => l.name
  | Value.intv n => pyIntStr n
  | Value.strv s => s
  | Value.tup xs => pyTupStr xs

/-- Python `s.lower()` (ASCII fragment, as used on mnemonics), computed
on the character list so it evaluates inside the kernel. -/
def pyLower (s : String) : String := String.mk (s.toList.map Char.toLower)

/-- `OperandType` enum from `riscv/instruction.py`. -/
inductive OperandType where
  | REGISTER
  | IMMEDIATE
  | LABEL
  | FREGISTER
  | BASE_OFFSET
  | CSR
deriving DecidableEq

/-- `InstructionFormat` enum from `riscv/instruction.py`. -/
inductive InstructionFormat where
  | R
  | I
  | B
  | U
  | J
  | FR
  | CSR_R
  | CSR_I
  | LOAD_STORE
deriving DecidableEq

/-- The `value` of each `InstructionFormat` member: its ordered operand kinds. -/
def InstructionFormat.value : InstructionFormat → List OperandType
  | InstructionFormat.R => [OperandType.REGISTER, OperandType.REGISTER, OperandType.REGISTER]
  | InstructionFormat.I => [OperandType.REGISTER, OperandType.REGISTER, OperandType.IMMEDIATE]
  | InstructionFormat.B => [OperandType.REGISTER, OperandType.REGISTER, OperandType.LABEL]
  | InstructionFormat.U => [OperandType.REGISTER, OperandType.IMMEDIATE]
  | InstructionFormat.J => [OperandType.REGISTER, OperandType.LABEL]
  | InstructionFormat.FR => [OperandType.FREGISTER, OperandType.FREGISTER, OperandType.FREGISTER]
  | InstructionFormat.CSR_R => [OperandType.REGISTER, OperandType.CSR, OperandType.REGISTER]
  | InstructionFormat.CSR_I => [OperandType.REGISTER, OperandType.CSR, OperandType.IMMEDIATE]
  | InstructionFormat.LOAD_STORE => [OperandType.REGISTER, OperandType.BASE_OFFSET]

/-- `InstructionDefinition` from `riscv/instruction.py`. -/
structure InstructionDefinition where
  mnemonic : String
  format : InstructionFormat
  extension : String
deriving DecidableEq

/-- The exceptions `InstructionDefinition.generate` can raise, one
constructor per raise site.  `arityMismatch` and `typeMismatch` are the
explicit `raise ValueError(...)` statements (`pos` is the 1-based operand
position `i+1` embedded in the message); `unpackError` is the implicit
`ValueError` CPython raises when `base_register, offset = operand`
unpacks a tuple whose length is not 2; `attributeError` is the
`AttributeError` crash of `base_register.abi_name` when the first tuple
element has no such attribute. -/
inductive GenError where
  | arityMismatch (expected got : Nat)
  | typeMismatch (pos : Nat) (expected : OperandType)
  | unpackError (len : Nat)
  | attributeError
deriving DecidableEq

/-- The `abi_name` attribute lookup on an arbitrary value: only
`Register` objects carry one. -/
def abiNameAttr : Value → Option String
  | Value.reg r => some r.abi_name
  | _ => none

/-- One iteration of the operand loop of `InstructionDefinition.generate`:
check operand `i` (0-based) against its expected kind and produce its
rendered text.  Mirrors the `if/elif` chain of the source: general and
floating-point registers must be `Register` values of the matching bank
and render as `abi_name`; CSRs and labels render as `name`; immediates
must be ints and render as `hex(operand)`; a base/offset operand is only
checked with `isinstance(operand, tuple)` and is then unpacked and
rendered as `f"{offset}({base_register.abi_name})"`. -/
def checkOperand (i : Nat) (expected : OperandType) (v : Value) :
    Except GenError String :=
  match expected with
  | OperandType.REGISTER =>
    match v with
    | Value.reg r =>
      if r.type = RegisterType.X then Except.ok r.abi_name
      else Except.error (GenError.typeMismatch (i + 1) OperandType.REGISTER)
    | _ => Except.error (GenError.typeMismatch (i + 1) OperandType.REGISTER)
  | OperandType.FREGISTER =>
    match v with
    | Value.reg r =>
      if r.type = RegisterType.F then Except.ok r.abi_name
      else Except.error (GenError.typeMismatch (i + 1) OperandType.FREGISTER)
    | _ => Except.error (GenError.typeMismatch (i + 1) OperandType.FREGISTER)
  | OperandType.CSR =>
    match v with
    | Value.csr c => Except.ok c.name
    | _ => Except.error (GenError.typeMismatch (i + 1) OperandType.CSR)
  | OperandType.LABEL =>
    match v with
    | Value.lab l => Except.ok l.name
    | _ => Except.error (GenError.typeMismatch (i + 1) OperandType.LABEL)
  | OperandType.IMMEDIATE =>
    match v with
    | Value.intv n => Except.ok (pyHex n)
    | _ => Except.error (GenError.typeMismatch (i + 1) OperandType.IMMEDIATE)
  | OperandType.BASE_OFFSET =>
    match v with
    | Value.tup xs =>
      match xs with
      | [b, off] =>
        match abiNameAttr b with
        | some abi => Except.ok (pyStrV off ++ "(" ++ abi ++ ")")
        | none => Except.error GenError.attributeError
      | _ => Except.error (GenError.unpackError xs.length)
    | _ => Except.error (GenError.typeMismatch (i + 1) OperandType.BASE_OFFSET)

/-- The operand loop of `generate`: fold `checkOperand` over the format's
kinds and the operands in lockstep, accumulating `formatted_operands`
or stopping at the first raised error. -/
def renderOperands : Nat → List OperandType → List Value →
    Except GenError (List String)
  | _, [], _ => Except.ok []
  | _, _ :: _, [] => Except.ok []
  | i, e :: es, v :: vs =>
    match checkOperand i e v with
    | Except.error err => Except.error err
    | Except.ok s =>
      match renderOperands (i + 1) es vs with
      | Except.error err => Except.error err
      | Except.ok ss => Except.ok (s :: ss)

/-- `InstructionDefinition.generate` from `riscv/instruction.py`: checks
the operand count against the format's arity (raising
`ValueError(f"Expected {n} operands but got {m}.")`), validates and
renders each operand in order, and returns
`f"{self.mnemonic.lower()} {', '.join(formatted_operands)}"`. -/
def InstructionDefinition.generate (d : InstructionDefinition)
    (operands : List Value) : Except GenError String :=
  if operands.length ≠ (InstructionFormat.value d.format).length then
    Except.error (GenError.arityMismatch (InstructionFormat.value d.format).length operands.length)
  else
    match renderOperands 0 (InstructionFormat.value d.format) operands with
    | Except.error err => Except.error err
    | Except.ok parts =>
      Except.ok (pyLower d.mnemonic ++ " " ++ String.intercalate ", " parts)

/-- Which random engine a component holds: the injected seeded
`random.Random` instance threaded through the constructors, or the
ambient global `random` module that `random_engine if random_engine else
random` falls back to. -/
inductive EngineRef where
  | injected
  | global_module
deriving DecidableEq

/-- The two independent randomness streams of a run: the seeded injected
engine and the ambient global `random` module. -/
structure RandWorld where
  injected : Eng
  ambient : Eng

/-- Draw one natural from the engine a component references. -/
def RandWorld.draw (w : RandWorld) (ref : EngineRef) : Nat × RandWorld :=
  match ref with
  | EngineRef.injected =>
    let pr := Eng.next w.injected
    (pr.1, ⟨pr.2, w.ambient⟩)
  | EngineRef.global_module =>
    let pr := Eng.next w.ambient
    (pr.1, ⟨w.injected, pr.2⟩)

/-- `InstructionSet` from `riscv/instruction.py`: the `instructions` dict
plus which engine `self.random_engine` refers to. -/
structure InstructionSet where
  instructions : List (String × InstructionDefinition)
  engineRef : EngineRef

/-- `InstructionSet._default_instructions` in dict insertion order. -/
def defaultInstrDict : List (String × InstructionDefinition) :=
  [("ADD", ⟨"ADD", InstructionFormat.R, "I"⟩),
   ("XOR", ⟨"XOR", InstructionFormat.R, "I"⟩),
   ("ADDI", ⟨"ADDI", InstructionFormat.I, "I"⟩),
   ("SW", ⟨"SW", InstructionFormat.LOAD_STORE, "I"⟩),
   ("BEQ", ⟨"BEQ", InstructionFormat.B, "I"⟩),
   ("LUI", ⟨"LUI", InstructionFormat.U, "I"⟩),
   ("JAL", ⟨"JAL", InstructionFormat.J, "I"⟩),
   ("FADD.S", ⟨"FADD.S", InstructionFormat.FR, "F"⟩),
   ("CSRRW", ⟨"CSRRW", InstructionFormat.CSR_R, "I"⟩),
   ("CSRRCI", ⟨"CSRRCI", InstructionFormat.CSR_I, "I"⟩),
   ("LW", ⟨"LW", InstructionFormat.LOAD_STORE, "I"⟩)]

/-- `InstructionSet.__init__`: `self.random_engine = random_engine if
random_engine else random` (so a construction without an engine falls
back to the global module) and `self.instructions = instructions or
self._default_instructions()`. -/
def InstructionSet.init (instrs : Option (List (String × InstructionDefinition)))
    (eng : Option EngineRef) : InstructionSet :=
  ⟨(match instrs with
    | none => defaultInstrDict
    | some l => if l.isEmpty then defaultInstrDict else l),
   (match eng with
    | none => EngineRef.global_module
    | some r => r)⟩

/-- Python truthiness of an optional string criterion: `not extension`
is true for both `None` and `""`. -/
def optStrFalsy (x : Option String) : Bool :=
  match x with
  | none => true
  | some s => s = ""

/-- `InstructionSet.filter` from `riscv/instruction.py`: keeps the dict
entries matching all supplied (truthy) criteria and wraps them in
`InstructionSet(filtered_instructions)` — constructed *without* passing
`self.random_engine`, so the filtered set references the global module. -/
def InstructionSet.filter (s : InstructionSet) (extension : Option String)
    (mnemonic : Option String) (format : Option InstructionFormat) :
    InstructionSet :=
  InstructionSet.init
    (some (s.instructions.filter (fun e =>
      (optStrFalsy extension || decide (e.2.extension = extension.getD "")) &&
      (optStrFalsy mnemonic || decide (e.2.mnemonic = mnemonic.getD "")) &&
      (match format with
       | none => true
       | some f => decide (e.2.format = f)))))
    none

/-- `InstructionSet.pick_random_instruction`: restricts the candidates to
an explicit mnemonic list (dropping absent entries) or to
`self.filter(extension=extension, format=format).instructions`, then
returns `self.random_engine.choice(...)` — drawn from the engine of the
*receiver* — or `None` when the candidate dict is empty. -/
def InstructionSet.pick_random_instruction (s : InstructionSet) (w : RandWorld)
    (extension : Option String) (format : Option InstructionFormat)
    (specific_list : Option (List String)) :
    Option InstructionDefinition × RandWorld :=
  let available :=
    match specific_list with
    | some l =>
      l.foldl (fun acc m =>
        match dictGet s.instructions m with
        | some d => dictInsert acc m d
        | none => acc) []
    | none => (InstructionSet.filter s extension none format).instructions
  if available.isEmpty then (none, w)
  else
    let vals := dictValues available
    let pr := RandWorld.draw w s.engineRef
    (some (vals.getD (pr.1 % vals.length) ⟨"", InstructionFormat.R, ""⟩), pr.2)

/-- The `CSRRegisters` default dict from `riscv/csr.py`. -/
def defaultCsrDict : List (String × CSRRegister) :=
  [("MSTATUS", ⟨"mstatus", "Machine status register", 0x300⟩),
   ("MIE", ⟨"mie", "Machine interrupt-enable register", 0x304⟩),
   ("MTVEC", ⟨"mtvec", "Machine trap-handler base address", 0x305⟩)]

/-- `CSRRegisters.pick_random_csr`: raises when the dict is empty, else
`self.random_engine.choice(list(self.registers.values()))`. -/
def CSRRegisters.pick_random_csr (csrs : List (String × CSRRegister))
    (ref : EngineRef) (w : RandWorld) :
    Except String (CSRRegister × RandWorld) :=
  if csrs.isEmpty then
    Except.error "No CSRRegisters available to pick from."
  else
    let vals := dictValues csrs
    let pr := RandWorld.draw w ref
    Except.ok (vals.getD (pr.1 % vals.length) ⟨"", "", 0⟩, pr.2)

/-- The mutable state of an `Assembler` from `riscv/assembler.py`.
`Assembler.__init__(seed)` seeds the injected engine and passes it to the
instruction set, register pool and CSR table, so all of those reference
`EngineRef.injected`; `code` and `labels` start empty. -/
structure AsmState where
  world : RandWorld
  store : Store
  pool : Pool
  csrs : List (String × CSRRegister)
  labels : List (String × Label)
  code : List String

/-- `Assembler(seed)` with a given injected stream, against the ambient
global module stream. -/
def Assembler.init (injected ambient : Eng) : AsmState :=
  ⟨⟨injected, ambient⟩, defaultStore, defaultPool, defaultCsrDict, [], []⟩

/-- `Assembler.define_label`: constructs and records a fresh `Label`, or
raises `ValueError(f"Label {label_name} already exists.")`. -/
def Assembler.define_label (st : AsmState) (label_name : String) :
    Except String (Label × AsmState) :=
  if st.labels.any (fun e => e.1 = label_name) then
    Except.error ("Label " ++ label_name ++ " already exists.")
  else
    match Label.init label_name none none with
    | Except.error e => Except.error e
    | Except.ok l =>
      Except.ok (l, ⟨st.world, st.store, st.pool, st.csrs,
        dictInsert st.labels label_name l, st.code⟩)

/-- `Assembler.generate_random_operand` from `riscv/assembler.py`.
Registers, CSRs, immediates and base/offset pairs draw from
`self.random_engine` / the pool's injected engine; the `LABEL` branch,
however, calls the *module-level* `random.randint(0, 1000)` (not
`self.random_engine`), so label numbering draws from the ambient global
stream. -/
def Assembler.generate_random_operand (st : AsmState) (ot : OperandType) :
    Except String (Value × AsmState) :=
  match ot with
  | OperandType.REGISTER =>
    match Registers.pick_register st.store st.pool st.world.injected
        (some RegisterType.X) none (some false) none false with
    | Except.error e => Except.error e
    | Except.ok (id, store2, eng2) =>
      Except.ok (Value.reg (Store.read store2 id),
        ⟨⟨eng2, st.world.ambient⟩, store2, st.pool, st.csrs, st.labels, st.code⟩)
  | OperandType.FREGISTER =>
    match Registers.pick_register st.store st.pool st.world.injected
        (some RegisterType.F) none (some false) none false with
    | Except.error e => Except.error e
    | Except.ok (id, store2, eng2) =>
      Except.ok (Value.reg (Store.read store2 id),
        ⟨⟨eng2, st.world.ambient⟩, store2, st.pool, st.csrs, st.labels, st.code⟩)
  | OperandType.CSR =>
    match CSRRegisters.pick_random_csr st.csrs EngineRef.injected st.world with
    | Except.error e => Except.error e
    | Except.ok (c, w2) =>
      Except.ok (Value.csr c, ⟨w2, st.store, st.pool, st.csrs, st.labels, st.code⟩)
  | OperandType.IMMEDIATE =>
    let pr := Eng.randint st.world.injected 0 0xFFFFFFFF
    Except.ok (Value.intv (Int.ofNat pr.1),
      ⟨⟨pr.2, st.world.ambient⟩, st.store, st.pool, st.csrs, st.labels, st.code⟩)
  | OperandType.LABEL =>
    let pr := Eng.randint st.world.ambient 0 1000
    let st2 : AsmState :=
      ⟨⟨st.world.injected, pr.2⟩, st.store, st.pool, st.csrs, st.labels, st.code⟩
    match Assembler.define_label st2 (s!"label_{pr.1}") with
    | Except.error e => Except.error e
    | Except.ok (l, st3) => Except.ok (Value.lab l, st3)
  | OperandType.BASE_OFFSET =>
    match Registers.pick_register st.store st.pool st.world.injected
        (some RegisterType.X) none (some false) none false with
    | Except.error e => Except.error e
    | Except.ok (id, store2, eng2) =>
      let pr := Eng.randint eng2 0 0xFFFFFFFF
      Except.ok (Value.tup [Value.reg (Store.read store2 id), Value.intv (Int.ofNat pr.1)],
        ⟨⟨pr.2, st.world.ambient⟩, store2, st.pool, st.csrs, st.labels, st.code⟩)

/-! ### Proof support: the filter chain as a single predicate, dict lemmas -/

/-- One optional criterion as a boolean check. -/
def matchOpt {β : Type} [DecidableEq β] (crit : Option β) (x : β) : Bool :=
  match crit with
  | none => true
  | some b => decide (x = b)

/-- The conjunction of the four optional predicates of `Registers.filter`
(nested in the order the sequential field filters compose). -/
def regMatches (t : Option RegisterType) (sb : Option RegisterSaveType)
    (res : Option Bool) (use : Option Bool) (r : Register) : Bool :=
  matchOpt use r.is_in_use &&
    (matchOpt res r.is_reserved && (matchOpt sb r.saved_by && matchOpt t r.type))

/-- `isOk` test for `Except`. -/
def isOkE {ε α : Type} : Except ε α → Bool
  | Except.ok _ => true
  | Except.error _ => false

lemma fieldFilter_eq {β : Type} [DecidableEq β] (store : Store) (crit : Option β)
    (read : Register → β) (ids : List Nat) :
    fieldFilter store crit read ids
      = ids.filter (fun id => matchOpt crit (read (Store.read store id))) := by
  cases crit with
  | none => simp [fieldFilter, matchOpt]
  | some b => rfl

/-- The filtered subset of `Registers.filter` is a single `List.filter`
by the ANDed predicate. -/
lemma registersFilter_eq (store : Store) (pool : Pool)
    (t : Option RegisterType) (sb : Option RegisterSaveType)
    (res : Option Bool) (use : Option Bool) :
    Registers.filter store pool t sb res use =
      (if ((dictValues pool).filter
            (fun id => regMatches t sb res use (Store.read store id))).isEmpty
       then Except.error "No registers matching the filter were found"
       else Except.ok (dictOfIds store ((dictValues pool).filter
            (fun id => regMatches t sb res use (Store.read store id))))) := by
  simp only [Registers.filter, fieldFilter_eq, List.filter_filter]
  rfl

lemma dictInsert_of_not_key {α : Type} (p : List (String × α)) (k : String) (v : α)
    (h : ∀ e ∈ p, e.1 ≠ k) : dictInsert p k v = p ++ [(k, v)] := by
  unfold dictInsert
  rw [if_neg]
  intro hany
  rcases List.any_eq_true.mp hany with ⟨e, he, hk⟩
  exact h e he (by simpa using hk)

lemma dictInsert_ne_nil {α : Type} (p : List (String × α)) (k : String) (v : α) :
    dictInsert p k v ≠ [] := by
  unfold dictInsert
  split
  · rename_i hany
    intro hemp
    rw [List.map_eq_nil_iff] at hemp
    subst hemp
    simp at hany
  · simp

lemma foldl_dictInsert_ne_nil (store : Store) (l : List Nat) :
    ∀ p : Pool, p ≠ [] →
      l.foldl (fun q id => dictInsert q (Store.read store id).name id) p ≠ [] := by
  induction l with
  | nil => intro p hp; simpa using hp
  | cons a l ih =>
    intro p _
    rw [List.foldl_cons]
    exact ih _ (dictInsert_ne_nil _ _ _)

lemma dictOfIds_ne_nil (store : Store) (ids : List Nat) (h : ids ≠ []) :
    dictOfIds store ids ≠ [] := by
  cases ids with
  | nil => exact absurd rfl h
  | cons a l =>
    unfold dictOfIds
    rw [List.foldl_cons]
    exact foldl_dictInsert_ne_nil store l _ (dictInsert_ne_nil _ _ _)

lemma foldl_dictInsert_eq_append (store : Store) :
    ∀ (ids : List Nat) (p : Pool),
      (ids.map (fun id => (Store.read store id).name)).Nodup →
      (∀ id ∈ ids, ∀ e ∈ p, e.1 ≠ (Store.read store id).name) →
      ids.foldl (fun q id => dictInsert q (Store.read store id).name id) p
        = p ++ ids.map (fun id => ((Store.read store id).name, id)) := by
  intro ids
  induction ids with
  | nil => intro p _ _; simp
  | cons a l ih =>
    intro p hnd hfresh
    rw [List.foldl_cons,
        dictInsert_of_not_key p _ a (fun e he => hfresh a (by simp) e he),
        ih (p ++ [((Store.read store a).name, a)])
          (by simpa using (List.nodup_cons.mp (by simpa using hnd)).2)]
    · simp
    · intro id hid e he
      rcases List.mem_append.mp he with hep | hea
      · exact hfresh id (by simp [hid]) e hep
      · have hne : (Store.read store a).name
            ∉ l.map (fun id => (Store.read store id).name) :=
          (List.nodup_cons.mp (by simpa using hnd)).1
        have : e = ((Store.read store a).name, a) := by simpa using hea
        subst this
        intro hkeq
        have heq : (Store.read store a).name = (Store.read store id).name := hkeq
        rw [heq] at hne
        exact hne (List.mem_map_of_mem _ hid)

/-- Under unique names, the dict rebuild of `Registers.filter` is just the
name-keyed pairing of the id list. -/
lemma dictOfIds_eq_map (store : Store) (ids : List Nat)
    (h : (ids.map (fun id => (Store.read store id).name)).Nodup) :
    dictOfIds store ids = ids.map (fun id => ((Store.read store id).name, id)) := by
  unfold dictOfIds
  rw [foldl_dictInsert_eq_append store ids [] h (by simp)]
  simp

lemma dictValues_dictOfIds (store : Store) (ids : List Nat)
    (h : (ids.map (fun id => (Store.read store id).name)).Nodup) :
    dictValues (dictOfIds store ids) = ids := by
  rw [dictOfIds_eq_map store ids h]
  simp only [dictValues, List.map_map]
  exact List.map_id ids

lemma dictGet_eq_some_of_mem {α : Type} (p : List (String × α)) (k : String) (v : α)
    (hnd : (p.map Prod.fst).Nodup) (hm : (k, v) ∈ p) : dictGet p k = some v := by
  induction p with
  | nil => cases hm
  | cons e l ih =>
    rcases List.mem_cons.mp hm with he | hl
    · subst he
      simp [dictGet, List.find?_cons]
    · have hne : e.1 ≠ k := by
        intro hk
        have : e.1 ∈ l.map Prod.fst := by
          rw [hk]
          exact List.mem_map_of_mem _ hl
        exact (List.nodup_cons.mp (by simpa using hnd)).1 this
      have hrest := ih (List.nodup_cons.mp (by simpa using hnd)).2 hl
      simpa [dictGet, List.find?_cons, hne] using hrest

lemma mem_of_dictGet {α : Type} (p : List (String × α)) (k : String) (v : α)
    (h : dictGet p k = some v) : (k, v) ∈ p := by
  unfold dictGet at h
  rcases Option.map_eq_some'.mp h with ⟨e, he, hev⟩
  have hm := List.mem_of_find?_eq_some he
  have hk := List.find?_some he
  have : e.1 = k := by simpa using hk
  cases e
  subst this
  subst hev
  exact hm

lemma store_read_set (store : Store) (id : Nat) (r : Register) :
    Store.read (store.set id r) id
      = if id < store.length then r else Store.read store id := by
  by_cases h : id < store.length
  · rw [if_pos h]
    unfold Store.read
    rw [List.getD_eq_getElem?_getD, List.getElem?_set_self h]
    rfl
  · rw [if_neg h, List.set_eq_of_length_le (Nat.le_of_not_lt h)]

lemma getD_mod_mem (l : List Nat) (k : Nat) (h : ¬ l.isEmpty = true) :
    l.getD (k % l.length) 0 ∈ l := by
  have hne : l ≠ [] := by
    intro hl
    subst hl
    simp at h
  have hl : 0 < l.length := List.length_pos.mpr hne
  have hlt : k % l.length < l.length := Nat.mod_lt _ hl
  rw [List.getD_eq_getElem?_getD, List.getElem?_eq_getElem hlt]
  exact List.getElem_mem hlt

/-- Every Python dict entry keys the register it stores: the pool maps
each architectural name to a record carrying that name. -/
abbrev PoolWellKeyed (store : Store) (p : Pool) : Prop :=
  ∀ e ∈ p, (Store.read store e.2).name = e.1

/-- The spec's pool invariant: architectural names are unique within a pool. -/
abbrev PoolNamesNodup (store : Store) (p : Pool) : Prop :=
  ((dictValues p).map (fun id => (Store.read store id).name)).Nodup

/-- Combine two optional criteria, at most one of which is supplied. -/
def mergeOpt {β : Type} (a b : Option β) : Option β :=
  match a with
  | some x => some x
  | none => b

/-- Two `Registers.filter` calls in sequence (the second applied to the
pool the first returned), propagating the first call's failure. -/
def seqFilter (store : Store) (pool : Pool)
    (t1 : Option RegisterType) (sb1 : Option RegisterSaveType)
    (res1 use1 : Option Bool)
    (t2 : Option RegisterType) (sb2 : Option RegisterSaveType)
    (res2 use2 : Option Bool) : Except String Pool :=
  match Registers.filter store pool t1 sb1 res1 use1 with
  | Except.error e => Except.error e
  | Except.ok f1 => Registers.filter store f1 t2 sb2 res2 use2

lemma mem_values_dictInsert {α : Type} (p : List (String × α)) (k : String) (v : α) :
    ∀ w ∈ dictValues (dictInsert p k v), w ∈ dictValues p ∨ w = v := by
  unfold dictInsert
  split
  · intro w hw
    rcases List.mem_map.mp hw with ⟨e, he, hev⟩
    rcases List.mem_map.mp he with ⟨e0, he0, hee⟩
    by_cases hk : e0.1 = k
    · right
      rw [← hev, ← hee]
      simp [hk]
    · left
      rw [← hev, ← hee]
      simp only [if_neg hk]
      exact List.mem_map_of_mem _ he0
  · intro w hw
    unfold dictValues at hw
    rw [List.map_append] at hw
    rcases List.mem_append.mp hw with h | h
    · exact Or.inl h
    · right
      simpa using h

lemma mem_values_foldl_dictInsert (store : Store) :
    ∀ (ids : List Nat) (p : Pool) (w : Nat),
      w ∈ dictValues (ids.foldl (fun q id => dictInsert q (Store.read store id).name id) p) →
      w ∈ dictValues p ∨ w ∈ ids := by
  intro ids
  induction ids with
  | nil => intro p w hw; exact Or.inl hw
  | cons a l ih =>
    intro p w hw
    rw [List.foldl_cons] at hw
    rcases ih _ w hw with h | h
    · rcases mem_values_dictInsert p _ a w h with h2 | h2
      · exact Or.inl h2
      · exact Or.inr (by simp [h2])
    · exact Or.inr (by simp [h])

lemma mem_values_dictOfIds (store : Store) (ids : List Nat) (w : Nat)
    (hw : w ∈ dictValues (dictOfIds store ids)) : w ∈ ids := by
  rcases mem_values_foldl_dictInsert store ids [] w hw with h | h
  · cases h
  · exact h

lemma filter_ok_elim (store : Store) (pool : Pool)
    (t : Option RegisterType) (sb : Option RegisterSaveType) (res use : Option Bool)
    (F : Pool) (h : Registers.filter store pool t sb res use = Except.ok F) :
    ((dictValues pool).filter
        (fun id => regMatches t sb res use (Store.read store id))) ≠ [] ∧
    F = dictOfIds store ((dictValues pool).filter
        (fun id => regMatches t sb res use (Store.read store id))) := by
  rw [registersFilter_eq] at h
  split at h
  · cases h
  · rename_i hcond
    refine ⟨?_, (Except.ok.injEq _ _).mp h |>.symm⟩
    intro hnil
    exact hcond (by simp [hnil])

lemma filter_ok_mem (store : Store) (pool : Pool)
    (t : Option RegisterType) (sb : Option RegisterSaveType) (res use : Option Bool)
    (F : Pool) (h : Registers.filter store pool t sb res use = Except.ok F)
    (v : Nat) (hv : v ∈ dictValues F) :
    v ∈ dictValues pool ∧ regMatches t sb res use (Store.read store v) = true := by
  obtain ⟨-, hF⟩ := filter_ok_elim store pool t sb res use F h
  subst hF
  have := mem_values_dictOfIds store _ v hv
  exact List.mem_filter.mp this

lemma filter_ok_of_exists (store : Store) (pool : Pool)
    (t : Option RegisterType) (sb : Option RegisterSaveType) (res use : Option Bool)
    (h : ∃ v, v ∈ dictValues pool ∧ regMatches t sb res use (Store.read store v) = true) :
    isOkE (Registers.filter store pool t sb res use) = true := by
  rw [registersFilter_eq]
  rcases h with ⟨v, hv, hm⟩
  rw [if_neg]
  · rfl
  · intro hemp
    have : v ∈ (dictValues pool).filter
        (fun id => regMatches t sb res use (Store.read store id)) :=
      List.mem_filter.mpr ⟨hv, hm⟩
    rw [List.isEmpty_iff] at hemp
    rw [hemp] at this
    cases this

lemma filter_ok_values_ne (store : Store) (pool : Pool)
    (t : Option RegisterType) (sb : Option RegisterSaveType) (res use : Option Bool)
    (F : Pool) (h : Registers.filter store pool t sb res use = Except.ok F) :
    ¬ (dictValues F).isEmpty = true := by
  obtain ⟨hne, hF⟩ := filter_ok_elim store pool t sb res use F h
  subst hF
  intro hemp
  rw [List.isEmpty_iff] at hemp
  have := dictOfIds_ne_nil store _ hne
  rw [List.map_eq_nil_iff.mp hemp] at this
  exact this rfl

lemma pick_ok_of_filter_ok (store : Store) (pool : Pool) (eng : Eng)
    (t : Option RegisterType) (sb : Option RegisterSaveType) (res use : Option Bool)
    (reserve : Bool) (regs : Pool)
    (h : Registers.filter store pool t sb res use = Except.ok regs) :
    isOkE (Registers.pick_register store pool eng t sb res use reserve) = true := by
  unfold Registers.pick_register
  rw [h]
  simp only []
  cases hin : Registers.filter store regs none none none (some false) with
  | ok unused =>
    have hne := filter_ok_values_ne store regs none none none (some false) unused hin
    simp only []
    rw [if_neg hne]
    rfl
  | error e =>
    have hne := filter_ok_values_ne store pool t sb res use regs h
    simp only []
    rw [if_neg hne]
    rfl

lemma pick_ok_elim (store : Store) (pool : Pool) (eng : Eng)
    (t : Option RegisterType) (sb : Option RegisterSaveType) (res use : Option Bool)
    (reserve : Bool) (id : Nat) (store2 : Store) (eng2 : Eng)
    (hp : Registers.pick_register store pool eng t sb res use reserve
      = Except.ok (id, store2, eng2)) :
    ∃ regs, Registers.filter store pool t sb res use = Except.ok regs ∧
      id ∈ dictValues regs ∧
      (∀ unused, Registers.filter store regs none none none (some false) = Except.ok unused →
        id ∈ dictValues unused) ∧
      store2 = store.set id (Register.markPicked (Store.read store id) reserve) := by
  unfold Registers.pick_register at hp
  cases hf : Registers.filter store pool t sb res use with
  | error e => rw [hf] at hp; cases hp
  | ok regs =>
    rw [hf] at hp
    simp only [] at hp
    refine ⟨regs, rfl, ?_⟩
    cases hin : Registers.filter store regs none none none (some false) with
    | ok unused =>
      rw [hin] at hp
      simp only [] at hp
      by_cases hemp : (dictValues unused).isEmpty = true
      · rw [if_pos hemp] at hp; cases hp
      · rw [if_neg hemp] at hp
        have hinj : ((dictValues unused).getD
              (Eng.choiceIdx eng (dictValues unused).length).1 0, store.set
              ((dictValues unused).getD (Eng.choiceIdx eng (dictValues unused).length).1 0)
              (Register.markPicked (Store.read store ((dictValues unused).getD
                (Eng.choiceIdx eng (dictValues unused).length).1 0)) reserve),
              (Eng.choiceIdx eng (dictValues unused).length).2)
            = (id, store2, eng2) := (Except.ok.injEq _ _).mp hp
        obtain ⟨h1, h2, -⟩ : _ ∧ _ ∧ _ := by
          simpa [Prod.mk.injEq] using hinj
        have hidmem : id ∈ dictValues unused := by
          rw [← h1]
          simpa [Eng.choiceIdx, Eng.next] using
            getD_mod_mem (dictValues unused) (eng.stream eng.pos) hemp
        refine ⟨(filter_ok_mem store regs none none none (some false) unused hin id hidmem).1,
          ?_, ?_⟩
        · intro u hu
          have : unused = u := (Except.ok.injEq _ _).mp hu
          rw [← this]
          exact hidmem
        · rw [← h2, h1]
    | error e2 =>
      rw [hin] at hp
      simp only [] at hp
      have hemp := filter_ok_values_ne store pool t sb res use regs hf
      rw [if_neg hemp] at hp
      have hinj : ((dictValues regs).getD
            (Eng.choiceIdx eng (dictValues regs).length).1 0, store.set
            ((dictValues regs).getD (Eng.choiceIdx eng (dictValues regs).length).1 0)
            (Register.markPicked (Store.read store ((dictValues regs).getD
              (Eng.choiceIdx eng (dictValues regs).length).1 0)) reserve),
            (Eng.choiceIdx eng (dictValues regs).length).2)
          = (id, store2, eng2) := (Except.ok.injEq _ _).mp hp
      obtain ⟨h1, h2, -⟩ : _ ∧ _ ∧ _ := by
        simpa [Prod.mk.injEq] using hinj
      have hidmem : id ∈ dictValues regs := by
        rw [← h1]
        simpa [Eng.choiceIdx, Eng.next] using
          getD_mod_mem (dictValues regs) (eng.stream eng.pos) hemp
      refine ⟨hidmem, ?_, ?_⟩
      · intro u hu
        cases hu
      · rw [← h2, h1]

/-! ### Concrete fixtures used by witnesses and counterexamples -/

/-- `Register("x10")`: plain construction, ABI alias defaults to the name. -/
def plainX10 : Register :=
  ⟨"x10", "x10", RegisterType.X, RegisterSaveType.Caller, false, false⟩

/-- `Register("x11")`. -/
def plainX11 : Register :=
  ⟨"x11", "x11", RegisterType.X, RegisterSaveType.Caller, false, false⟩

/-- The catalog's `ADD` definition. -/
def addDef : InstructionDefinition := ⟨"ADD", InstructionFormat.R, "I"⟩

/-- The catalog's `ADDI` definition. -/
def addiDef : InstructionDefinition := ⟨"ADDI", InstructionFormat.I, "I"⟩

/-- The catalog's `SW` definition. -/
def swDef : InstructionDefinition := ⟨"SW", InstructionFormat.LOAD_STORE, "I"⟩

/-- A deterministic stream that always yields `0`. -/
def engZero : Eng := ⟨fun _ => 0, 0⟩

/-- A deterministic stream that always yields `1`. -/
def engOne : Eng := ⟨fun _ => 1, 0⟩

/-- A one-register pool whose only register is already in use. -/
def tinyStore : Store :=
  [⟨"x5", "t0", RegisterType.X, RegisterSaveType.Caller, false, true⟩]

/-- The pool dict over `tinyStore`. -/
def tinyPool : Pool := [("x5", 0)]

/-- A two-register pool: `x5` reserved, `x6` free. -/
def twoStore : Store :=
  [⟨"x5", "t0", RegisterType.X, RegisterSaveType.Caller, true, false⟩,
   ⟨"x6", "t1", RegisterType.X, RegisterSaveType.Caller, false, false⟩]

/-- The pool dict over `twoStore`. -/
def twoPool : Pool := [("x5", 0), ("x6", 1)]

/-- Two assembler runs issuing identical call sequences from the same
seed (`engZero` injected in both); they face different ambient global
`random` module states. -/
def asmRunA : AsmState := Assembler.init engZero engZero

/-- The second run: same injected engine, different ambient stream. -/
def asmRunB : AsmState := Assembler.init engZero engOne

/-- The assembler's instruction set: constructed with the injected engine. -/
def isaInjected : InstructionSet := InstructionSet.init none (some EngineRef.injected)

/-- `isa.filter(extension="I")`: the filtered catalog. -/
def filteredIsa : InstructionSet := InstructionSet.filter isaInjected (some "I") none none

/-- Project the label name out of a `generate_random_operand` result. -/
def labelNameOfResult : Except String (Value × AsmState) → Option String
  | Except.ok (Value.lab l, _) => some l.name
  | _ => none

/-- Project the mnemonic out of a `pick_random_instruction` result. -/
def mnemonicOfPick : Option InstructionDefinition × RandWorld → Option String
  | (some d, _) => some d.mnemonic
  | (none, _) => none

/-! ### Hexadecimal rendering facts -/

/-- Membership in the lowercase hexadecimal alphabet. -/
def hexOK (c : Char) : Bool := c ∈ "0123456789abcdef".toList

/-- Every character of a string is a lowercase hexadecimal digit. -/
def isLowerHexStr (s : String) : Bool := s.toList.all hexOK

lemma toDigitsCore_hex : ∀ (fuel n : Nat) (ds : List Char),
    (∀ c ∈ ds, hexOK c = true) →
    ∀ c ∈ Nat.toDigitsCore 16 fuel n ds, hexOK c = true := by
  intro fuel
  induction fuel with
  | zero => intro n ds hds; simpa [Nat.toDigitsCore] using hds
  | succ fuel ih =>
    intro n ds hds
    rw [Nat.toDigitsCore]
    have hd : hexOK ((n % 16).digitChar) = true := by
      have hall : ∀ m, m < 16 → hexOK (Nat.digitChar m) = true := by decide
      exact hall (n % 16) (Nat.mod_lt _ (by norm_num))
    split
    · intro c hc
      rcases List.mem_cons.mp hc with h | h
      · subst h; exact hd
      · exact hds c h
    · exact ih _ _ (by
        intro c hc
        rcases List.mem_cons.mp hc with h | h
        · subst h; exact hd
        · exact hds c h)

lemma natHexStr_hex (n : Nat) : isLowerHexStr (natHexStr n) = true := by
  unfold isLowerHexStr natHexStr Nat.toDigits
  rw [List.all_eq_true]
  exact toDigitsCore_hex (n + 1) n [] (by intro c hc; cases hc)

lemma pyHex_ofNat (n : Nat) : pyHex (Int.ofNat n) = "0x" ++ natHexStr n := by
  unfold pyHex
  rw [if_neg (by exact not_lt.mpr (Int.ofNat_nonneg n))]
  norm_num

lemma intercalate_pair (x y : String) :
    String.intercalate ", " [x, y] = x ++ ", " ++ y := by
  simp [String.intercalate, String.intercalate.go]

/-! ### Claim theorems -/

/-- C3: refuted on the code (code bug).  Two runs with the *same*
injected seeded engine but different ambient global `random` states
diverge: the `LABEL` branch of `Assembler.generate_random_operand` calls
the module-level `random.randint`, so the produced label names differ
(`label_0` vs `label_1`); and `InstructionSet.filter` constructs the
filtered catalog without passing `self.random_engine`, so the filtered
catalog draws `pick_random_instruction` choices from the global module
(`ADD` vs `XOR`), while the parent catalog held the injected engine. -/
theorem ambient_randomness_divergence :
    asmRunA.world.injected = asmRunB.world.injected ∧
    labelNameOfResult (Assembler.generate_random_operand asmRunA OperandType.LABEL)
      = some "label_0" ∧
    labelNameOfResult (Assembler.generate_random_operand asmRunB OperandType.LABEL)
      = some "label_1" ∧
    isaInjected.engineRef = EngineRef.injected ∧
    filteredIsa.engineRef = EngineRef.global_module ∧
    mnemonicOfPick (InstructionSet.pick_random_instruction filteredIsa
      ⟨engZero, engZero⟩ none none none) = some "ADD" ∧
    mnemonicOfPick (InstructionSet.pick_random_instruction filteredIsa
      ⟨engZero, engOne⟩ none none none) = some "XOR" :=
  ⟨rfl, rfl, rfl, rfl, rfl, rfl, rfl⟩

/-- C2: counterexample.  A `BaseOffset` operand that is not a
(register, integer) pair is *not* rejected with an operand-type error:
the tuple `(5, 3)` crashes with `AttributeError` (reading `.abi_name`
off the int `5`), and the tuple `(x11, "hi")` renders successfully even
though its offset is not an integer. -/
theorem generate_base_offset_cex :
    InstructionDefinition.generate swDef
        [Value.reg plainX10, Value.tup [Value.intv 5, Value.intv 3]]
      = Except.error GenError.attributeError ∧
    InstructionDefinition.generate swDef
        [Value.reg plainX10, Value.tup [Value.reg plainX11, Value.strv "hi"]]
      = Except.ok "sw x10, hi(x11)" :=
  ⟨by decide, by decide⟩

/-- The operand loop raises the *first* failing check's error: if every
operand before position `i` validates and the check at `i` fails with
`err`, the loop's result is `err`. -/
lemma renderOperands_error_at :
    ∀ (es : List OperandType) (vs : List Value) (i0 i : Nat) (e : OperandType)
      (v : Value) (err : GenError),
      es[i]? = some e → vs[i]? = some v →
      (∀ (j : Nat) (ej : OperandType) (vj : Value), j < i →
        es[j]? = some ej → vs[j]? = some vj →
        isOkE (checkOperand (i0 + j) ej vj) = true) →
      checkOperand (i0 + i) e v = Except.error err →
      renderOperands i0 es vs = Except.error err := by
  intro es
  induction es with
  | nil =>
    intro vs i0 i e v err h1
    simp at h1
  | cons e0 es2 ih =>
    intro vs i0 i e v err h1 h2 hprev herr
    cases vs with
    | nil => simp at h2
    | cons v0 vs2 =>
      cases i with
      | zero =>
        obtain rfl : e0 = e := by simpa using h1
        obtain rfl : v0 = v := by simpa using h2
        have herr2 : checkOperand i0 e0 v0 = Except.error err := herr
        simp only [renderOperands]
        rw [herr2]
      | succ i1 =>
        have h0ok : isOkE (checkOperand i0 e0 v0) = true :=
          hprev 0 e0 v0 (Nat.succ_pos i1) (by simp) (by simp)
        cases hc : checkOperand i0 e0 v0 with
        | error e2 =>
          rw [hc] at h0ok
          simp [isOkE] at h0ok
        | ok s =>
          simp only [renderOperands]
          rw [hc]
          simp only []
          have hrec : renderOperands (i0 + 1) es2 vs2 = Except.error err := by
            apply ih vs2 (i0 + 1) i1 e v err (by simpa using h1) (by simpa using h2)
            · intro j ej vj hj hj1 hj2
              have hp := hprev (j + 1) ej vj (Nat.succ_lt_succ hj)
                (by simpa using hj1) (by simpa using hj2)
              have hidx : i0 + (j + 1) = (i0 + 1) + j := by omega
              rw [hidx] at hp
              exact hp
            · have hidx : i0 + (i1 + 1) = (i0 + 1) + i1 := by omega
              rw [hidx] at herr
              exact herr
          rw [hrec]

/-- C2 amended: `generate` fails with the arity error whenever the
operand count differs from the format's arity; operands are validated in
order and the first failing check's error is what `generate` raises, and
for every non-BaseOffset kind a check either succeeds or fails with the
operand-type error naming the 1-based offending position — so any
non-BaseOffset kind/value mismatch surfaces as `OperandTypeMismatch` at
its position.  A `BaseOffset` operand, however, is only checked to be a
tuple: a non-tuple fails with the operand-type error at its position; a
2-tuple is unpacked without content validation — it renders
`str(offset)(base.abi_name)` when the base is a register, crashes with
`AttributeError` when the base has no `abi_name` attribute, and a tuple
of any other length crashes with the implicit unpacking `ValueError`. -/
theorem generate_base_offset_amended :
    (∀ (d : InstructionDefinition) (ops : List Value),
      ops.length ≠ (InstructionFormat.value d.format).length →
      InstructionDefinition.generate d ops
        = Except.error (GenError.arityMismatch
            (InstructionFormat.value d.format).length ops.length)) ∧
    (∀ (d : InstructionDefinition) (ops : List Value) (i : Nat) (e : OperandType)
        (v : Value) (err : GenError),
      ops.length = (InstructionFormat.value d.format).length →
      (InstructionFormat.value d.format)[i]? = some e →
      ops[i]? = some v →
      (∀ (j : Nat) (ej : OperandType) (vj : Value), j < i →
        (InstructionFormat.value d.format)[j]? = some ej → ops[j]? = some vj →
        isOkE (checkOperand j ej vj) = true) →
      checkOperand i e v = Except.error err →
      InstructionDefinition.generate d ops = Except.error err) ∧
    (∀ (i : Nat) (e : OperandType) (v : Value), e ≠ OperandType.BASE_OFFSET →
      isOkE (checkOperand i e v) = true ∨
        checkOperand i e v = Except.error (GenError.typeMismatch (i + 1) e)) ∧
    (∀ (d : InstructionDefinition) (r : Register) (xs : List Value),
      d.format = InstructionFormat.LOAD_STORE → r.type = RegisterType.X →
      xs.length ≠ 2 →
      InstructionDefinition.generate d [Value.reg r, Value.tup xs]
        = Except.error (GenError.unpackError xs.length)) ∧
    (∀ (d : InstructionDefinition) (r : Register) (b off : Value) (rb : Register),
      d.format = InstructionFormat.LOAD_STORE → r.type = RegisterType.X →
      b = Value.reg rb →
      InstructionDefinition.generate d [Value.reg r, Value.tup [b, off]]
        = Except.ok (pyLower d.mnemonic ++ " " ++ r.abi_name ++ ", "
            ++ pyStrV off ++ "(" ++ rb.abi_name ++ ")")) ∧
    (∀ (d : InstructionDefinition) (r : Register) (b off : Value),
      d.format = InstructionFormat.LOAD_STORE → r.type = RegisterType.X →
      abiNameAttr b = none →
      InstructionDefinition.generate d [Value.reg r, Value.tup [b, off]]
        = Except.error GenError.attributeError) ∧
    (∀ (d : InstructionDefinition) (r : Register) (v : Value),
      d.format = InstructionFormat.LOAD_STORE → r.type = RegisterType.X →
      (∀ xs, v ≠ Value.tup xs) →
      InstructionDefinition.generate d [Value.reg r, v]
        = Except.error (GenError.typeMismatch 2 OperandType.BASE_OFFSET)) := by
  refine ⟨?_, ?_, ?_, ?_, ?_, ?_, ?_⟩
  · intro d ops hlen
    unfold InstructionDefinition.generate
    rw [if_pos hlen]
  · intro d ops i e v err hlen h1 h2 hprev herr
    unfold InstructionDefinition.generate
    rw [if_neg (fun hne => hne hlen)]
    have hrend : renderOperands 0 (InstructionFormat.value d.format) ops
        = Except.error err := by
      apply renderOperands_error_at (InstructionFormat.value d.format) ops 0 i e v err
        h1 h2
      · intro j ej vj hj hj1 hj2
        have hp := hprev j ej vj hj hj1 hj2
        simpa [Nat.zero_add] using hp
      · simpa [Nat.zero_add] using herr
    rw [hrend]
  · intro i e v hne
    cases e with
    | BASE_OFFSET => exact absurd rfl hne
    | REGISTER =>
      cases v with
      | reg r =>
        cases hr : r.type with
        | X => exact Or.inl (by simp [checkOperand, hr, isOkE])
        | F => exact Or.inr (by simp [checkOperand, hr])
      | csr c => exact Or.inr rfl
      | lab l => exact Or.inr rfl
      | intv n => exact Or.inr rfl
      | strv s => exact Or.inr rfl
      | tup xs => exact Or.inr rfl
    | FREGISTER =>
      cases v with
      | reg r =>
        cases hr : r.type with
        | X => exact Or.inr (by simp [checkOperand, hr])
        | F => exact Or.inl (by simp [checkOperand, hr, isOkE])
      | csr c => exact Or.inr rfl
      | lab l => exact Or.inr rfl
      | intv n => exact Or.inr rfl
      | strv s => exact Or.inr rfl
      | tup xs => exact Or.inr rfl
    | CSR =>
      cases v with
      | csr c => exact Or.inl rfl
      | reg r => exact Or.inr rfl
      | lab l => exact Or.inr rfl
      | intv n => exact Or.inr rfl
      | strv s => exact Or.inr rfl
      | tup xs => exact Or.inr rfl
    | LABEL =>
      cases v with
      | lab l => exact Or.inl rfl
      | reg r => exact Or.inr rfl
      | csr c => exact Or.inr rfl
      | intv n => exact Or.inr rfl
      | strv s => exact Or.inr rfl
      | tup xs => exact Or.inr rfl
    | IMMEDIATE =>
      cases v with
      | intv n => exact Or.inl rfl
      | reg r => exact Or.inr rfl
      | csr c => exact Or.inr rfl
      | lab l => exact Or.inr rfl
      | strv s => exact Or.inr rfl
      | tup xs => exact Or.inr rfl
  · intro d r xs hfmt hr hlen
    obtain ⟨mn, fmt, ext⟩ := d
    simp only [] at hfmt
    subst hfmt
    rcases xs with _ | ⟨b, _ | ⟨off, _ | ⟨c, rest⟩⟩⟩
    · simp [InstructionDefinition.generate, InstructionFormat.value, renderOperands,
        checkOperand, hr]
    · simp [InstructionDefinition.generate, InstructionFormat.value, renderOperands,
        checkOperand, hr]
    · exact absurd rfl hlen
    · simp [InstructionDefinition.generate, InstructionFormat.value, renderOperands,
        checkOperand, hr]
  · intro d r b off rb hfmt hr hb
    obtain ⟨mn, fmt, ext⟩ := d
    simp only [] at hfmt
    subst hfmt
    subst hb
    simp [InstructionDefinition.generate, InstructionFormat.value, renderOperands,
      checkOperand, abiNameAttr, hr, intercalate_pair, String.append_assoc]
  · intro d r b off hfmt hr hb
    obtain ⟨mn, fmt, ext⟩ := d
    simp only [] at hfmt
    subst hfmt
    simp [InstructionDefinition.generate, InstructionFormat.value, renderOperands,
      checkOperand, hr, hb]
  · intro d r v hfmt hr hnt
    obtain ⟨mn, fmt, ext⟩ := d
    simp only [] at hfmt
    subst hfmt
    cases v with
    | tup xs => exact absurd rfl (hnt xs)
    | reg r2 => simp [InstructionDefinition.generate, InstructionFormat.value,
        renderOperands, checkOperand, hr]
    | csr c => simp [InstructionDefinition.generate, InstructionFormat.value,
        renderOperands, checkOperand, hr]
    | lab l => simp [InstructionDefinition.generate, InstructionFormat.value,
        renderOperands, checkOperand, hr]
    | intv n => simp [InstructionDefinition.generate, InstructionFormat.value,
        renderOperands, checkOperand, hr]
    | strv s => simp [InstructionDefinition.generate, InstructionFormat.value,
        renderOperands, checkOperand, hr]

/-- C2 amended, witnessed at concrete inputs: the spec scenario
`render(ADD, [x10, x11, 5])` fails with the operand-type error at
position 3 (derived through the first-error propagation conjunct), and
`SW` with a 3-tuple base/offset operand crashes at unpacking. -/
theorem generate_base_offset_amended_witness :
    InstructionDefinition.generate addDef
        [Value.reg plainX10, Value.reg plainX11, Value.intv 5]
      = Except.error (GenError.typeMismatch 3 OperandType.REGISTER) ∧
    InstructionDefinition.generate swDef
        [Value.reg plainX10, Value.tup [Value.intv 1, Value.intv 2, Value.intv 3]]
      = Except.error (GenError.unpackError 3) :=
  ⟨generate_base_offset_amended.2.1 addDef
      [Value.reg plainX10, Value.reg plainX11, Value.intv 5] 2 OperandType.REGISTER
      (Value.intv 5) (GenError.typeMismatch 3 OperandType.REGISTER) rfl rfl rfl
      (by
        intro j ej vj hj hj1 hj2
        cases j with
        | zero =>
          obtain rfl : OperandType.REGISTER = ej := Option.some.inj hj1
          obtain rfl : Value.reg plainX10 = vj := Option.some.inj hj2
          rfl
        | succ j1 =>
          cases j1 with
          | zero =>
            obtain rfl : OperandType.REGISTER = ej := Option.some.inj hj1
            obtain rfl : Value.reg plainX11 = vj := Option.some.inj hj2
            rfl
          | succ j2 => exact absurd hj (by omega))
      rfl,
    generate_base_offset_amended.2.2.2.1 swDef plainX10
      [Value.intv 1, Value.intv 2, Value.intv 3] rfl rfl (by decide)⟩

/-- C4: counterexample.  On the *default* pool, `x10` and `x11` carry
the ABI aliases `a0` and `a1`, and registers render as their ABI alias —
so `render(ADDI, [x10, x11, 5])` on the default pool yields
`"addi a0, a1, 0x5"`, not `"addi x10, x11, 0x5"` (the latter requires
plainly constructed registers whose alias defaults to the name). -/
theorem render_default_pool_cex :
    InstructionDefinition.generate addiDef
        [Value.reg (Store.read defaultStore 10), Value.reg (Store.read defaultStore 11),
          Value.intv 5]
      = Except.ok "addi a0, a1, 0x5" ∧
    (Except.ok "addi a0, a1, 0x5" : Except GenError String)
      ≠ Except.ok "addi x10, x11, 0x5" :=
  ⟨by decide, by decide⟩

/-- C4 amended: on success `generate` returns the lowercased mnemonic, a
space, and the rendered operands joined by `", "`; integer- and
float-register operands render as their ABI alias, CSR and label operands
as their name, and an immediate renders as Python `hex()` — `0x`-prefixed
lowercase hexadecimal for nonnegative values.  The ADDI scenario yields
`"addi x10, x11, 0x5"` with plainly constructed registers (alias = name),
and `"addi a0, a1, 0x5"` on the default pool. -/
theorem generate_render_amended :
    (∀ (d : InstructionDefinition) (ops : List Value) (parts : List String),
      ops.length = (InstructionFormat.value d.format).length →
      renderOperands 0 (InstructionFormat.value d.format) ops = Except.ok parts →
      InstructionDefinition.generate d ops
        = Except.ok (pyLower d.mnemonic ++ " " ++ String.intercalate ", " parts)) ∧
    (∀ (i : Nat) (r : Register), r.type = RegisterType.X →
      checkOperand i OperandType.REGISTER (Value.reg r) = Except.ok r.abi_name) ∧
    (∀ (i : Nat) (r : Register), r.type = RegisterType.F →
      checkOperand i OperandType.FREGISTER (Value.reg r) = Except.ok r.abi_name) ∧
    (∀ (i : Nat) (c : CSRRegister),
      checkOperand i OperandType.CSR (Value.csr c) = Except.ok c.name) ∧
    (∀ (i : Nat) (l : Label),
      checkOperand i OperandType.LABEL (Value.lab l) = Except.ok l.name) ∧
    (∀ (i : Nat) (n : Int),
      checkOperand i OperandType.IMMEDIATE (Value.intv n) = Except.ok (pyHex n)) ∧
    (∀ n : Nat, pyHex (Int.ofNat n) = "0x" ++ natHexStr n) ∧
    (∀ n : Nat, isLowerHexStr (natHexStr n) = true) ∧
    InstructionDefinition.generate addiDef
        [Value.reg plainX10, Value.reg plainX11, Value.intv 5]
      = Except.ok "addi x10, x11, 0x5" ∧
    InstructionDefinition.generate addiDef
        [Value.reg (Store.read defaultStore 10), Value.reg (Store.read defaultStore 11),
          Value.intv 5]
      = Except.ok "addi a0, a1, 0x5" := by
  refine ⟨?_, ?_, ?_, ?_, ?_, ?_, pyHex_ofNat, natHexStr_hex, by decide, by decide⟩
  · intro d ops parts hlen hrender
    unfold InstructionDefinition.generate
    rw [if_neg (fun hne => hne hlen), hrender]
  · intro i r hr
    simp [checkOperand, hr]
  · intro i r hr
    simp [checkOperand, hr]
  · intro i c
    rfl
  · intro i l
    rfl
  · intro i n
    rfl

/-- C4 amended, witnessed: the success shape applied to the concrete
ADDI call. -/
theorem generate_render_amended_witness :
    ([Value.reg plainX10, Value.reg plainX11, Value.intv 5].length
      = (InstructionFormat.value addiDef.format).length) ∧
    renderOperands 0 (InstructionFormat.value addiDef.format)
        [Value.reg plainX10, Value.reg plainX11, Value.intv 5]
      = Except.ok ["x10", "x11", "0x5"] ∧
    InstructionDefinition.generate addiDef
        [Value.reg plainX10, Value.reg plainX11, Value.intv 5]
      = Except.ok (pyLower addiDef.mnemonic ++ " "
          ++ String.intercalate ", " ["x10", "x11", "0x5"]) :=
  ⟨rfl, rfl, generate_render_amended.1 addiDef _ ["x10", "x11", "0x5"] rfl rfl⟩

/-- The spec's register-name pattern `^(x|f)[0-9]+$`, written from the
spec's words, for comparison against the constructor's check. -/
def matchesRegNameRegex (name : String) : Bool :=
  match name.toList with
  | [] => false
  | c :: rest => (c == 'x' || c == 'f') && (!rest.isEmpty && rest.all Char.isDigit)

lemma char_beq_comm (a b : Char) : (a == b) = (b == a) := by
  by_cases h : a = b
  · subst h; rfl
  · have h1 : (a == b) = false := by simpa using h
    have h2 : (b == a) = false := by simpa using (Ne.symm h)
    rw [h1, h2]

/-- The constructor's name check coincides with the spec's regex. -/
lemma regNameCheck_eq_regex (name : String) :
    ((strStartsWith name "x" || strStartsWith name "f") && pyIsDigit (name.drop 1))
      = matchesRegNameRegex name := by
  unfold strStartsWith pyIsDigit matchesRegNameRegex
  have hdrop : (name.drop 1).toList = name.toList.drop 1 := String.data_drop name 1
  rw [hdrop]
  have hx : "x".toList = ['x'] := rfl
  have hf : "f".toList = ['f'] := rfl
  rw [hx, hf]
  cases hl : name.toList with
  | nil => simp
  | cons c rest =>
    simp [List.isPrefixOf, char_beq_comm 'x' c, char_beq_comm 'f' c]

/-- C5: counterexample.  The constructor does *not* enforce that the
name's prefix agrees with the declared bank: `Register("x5",
type=RegisterType.F)` constructs successfully, yet its bank is `F` while
its name starts with `x`. -/
theorem register_bank_prefix_cex :
    Register.init "x5" none RegisterType.F RegisterSaveType.Caller false false
      = Except.ok ⟨"x5", "x5", RegisterType.F, RegisterSaveType.Caller, false, false⟩ ∧
    ¬ ((RegisterType.F = RegisterType.X) ↔ (strStartsWith "x5" "x" = true)) :=
  ⟨by decide, by decide⟩

set_option maxRecDepth 8000 in
/-- C5 amended: construction succeeds exactly when the name matches
`^(x|f)[0-9]+$` (otherwise it fails with the invalid-name error), and on
success the record keeps the given name and the *declared* bank — the
constructor does not check bank/prefix agreement.  The agreement does
hold for every register of the default pool. -/
theorem register_init_amended (name : String) (abi : Option String)
    (t : RegisterType) (sb : RegisterSaveType) (res use : Bool) :
    isOkE (Register.init name abi t sb res use) = matchesRegNameRegex name ∧
    (∀ r, Register.init name abi t sb res use = Except.ok r →
      r.name = name ∧ r.type = t) ∧
    (∀ id ∈ dictValues defaultPool,
      ((Store.read defaultStore id).type = RegisterType.X
        ↔ strStartsWith (Store.read defaultStore id).name "x" = true)) := by
  refine ⟨?_, ?_, by decide⟩
  · rw [← regNameCheck_eq_regex]
    unfold Register.init
    cases hA : (strStartsWith name "x" || strStartsWith name "f") <;>
      cases hD : pyIsDigit (name.drop 1) <;> simp [isOkE]
  · intro r h
    unfold Register.init at h
    split at h
    · cases h
    · have := (Except.ok.injEq _ _).mp h
      rw [← this]
      exact ⟨rfl, rfl⟩

set_option maxRecDepth 8000 in
/-- C8: counterexample.  `reserve` does *not* reject ABI aliases: on the
default pool, `"a0"` is no architectural name (the dict lookup misses),
yet `reserve_register("a0")` succeeds via `get_register`'s ABI-alias
fallback, reserving `x10`. -/
theorem reserve_abi_alias_cex :
    dictGet defaultPool "a0" = none ∧
    Registers.reserve_register defaultStore defaultPool "a0"
      = Except.ok (10, defaultStore.set 10
          ⟨"x10", "a0", RegisterType.X, RegisterSaveType.Caller, true, false⟩) :=
  ⟨by decide, by decide⟩

/-- C8 amended: `reserve` resolves the name through `get_register`, which
looks up the architectural name first and then falls back to a linear
scan of ABI aliases; it fails with `UnknownRegister` exactly when the
name matches neither an architectural name nor an ABI alias in the pool,
and on success it sets the found register's `reserved` flag. -/
theorem reserve_register_amended (store : Store) (pool : Pool) (name : String) :
    (Registers.reserve_register store pool name
        = Except.error ("Invalid register name: " ++ name)
      ↔ Registers.get_register store pool name = none) ∧
    (Registers.get_register store pool name = none
      ↔ (dictGet pool name = none ∧
          ∀ id ∈ dictValues pool, ¬ ((Store.read store id).abi_name = name))) ∧
    (∀ id, dictGet pool name = some id →
      Registers.get_register store pool name = some id) ∧
    (∀ id st2, Registers.reserve_register store pool name = Except.ok (id, st2) →
      Registers.get_register store pool name = some id ∧
      st2 = store.set id ⟨(Store.read store id).name, (Store.read store id).abi_name,
        (Store.read store id).type, (Store.read store id).saved_by, true,
        (Store.read store id).is_in_use⟩ ∧
      (id < store.length → (Store.read st2 id).is_reserved = true)) := by
  refine ⟨?_, ?_, ?_, ?_⟩
  · unfold Registers.reserve_register
    cases hget : Registers.get_register store pool name with
    | none => simp
    | some id => simp
  · unfold Registers.get_register
    cases hd : dictGet pool name with
    | none =>
      simp only []
      rw [List.find?_eq_none]
      constructor
      · intro hall
        refine ⟨by trivial, fun id hid habi => ?_⟩
        have hcontra := hall id hid
        simp [habi] at hcontra
      · intro hall id hid
        simp only [decide_eq_true_eq]
        exact hall.2 id hid
    | some id => simp
  · intro id hd
    unfold Registers.get_register
    rw [hd]
  · intro id st2 h
    unfold Registers.reserve_register at h
    cases hget : Registers.get_register store pool name with
    | none => rw [hget] at h; cases h
    | some id2 =>
      rw [hget] at h
      simp only [] at h
      have hinj : (id2, store.set id2 ⟨(Store.read store id2).name,
          (Store.read store id2).abi_name, (Store.read store id2).type,
          (Store.read store id2).saved_by, true, (Store.read store id2).is_in_use⟩)
          = (id, st2) := (Except.ok.injEq _ _).mp h
      obtain ⟨h1, h2⟩ : _ ∧ _ := by simpa [Prod.mk.injEq] using hinj
      subst h1
      refine ⟨rfl, h2.symm, ?_⟩
      intro hlt
      rw [← h2, store_read_set, if_pos hlt]

/-- C8 amended, witnessed: reserving `x6` by architectural name on the
two-register pool resolves and sets the flag. -/
theorem reserve_register_amended_witness :
    Registers.reserve_register twoStore twoPool "x6"
      = Except.ok (1, twoStore.set 1
          ⟨"x6", "t1", RegisterType.X, RegisterSaveType.Caller, true, false⟩) ∧
    Registers.get_register twoStore twoPool "x6" = some 1 :=
  ⟨rfl,
    ((reserve_register_amended twoStore twoPool "x6").2.2.2 1
      (twoStore.set 1 ⟨"x6", "t1", RegisterType.X, RegisterSaveType.Caller, true, false⟩)
      rfl).1⟩

/-- C7: `filter` returns a pool holding exactly the registers satisfying
the conjunction of all supplied predicates, and fails with `NoMatch`
exactly when no register in the pool satisfies them. -/
theorem filter_exact_spec (store : Store) (pool : Pool)
    (t : Option RegisterType) (sb : Option RegisterSaveType) (res use : Option Bool)
    (hn : PoolNamesNodup store pool) :
    (Registers.filter store pool t sb res use
        = Except.error "No registers matching the filter were found"
      ↔ ∀ id ∈ dictValues pool, regMatches t sb res use (Store.read store id) = false) ∧
    (∀ F, Registers.filter store pool t sb res use = Except.ok F →
      ∀ id, (id ∈ dictValues F
        ↔ (id ∈ dictValues pool ∧ regMatches t sb res use (Store.read store id) = true))) := by
  constructor
  · rw [registersFilter_eq]
    split
    · rename_i hemp
      rw [List.isEmpty_iff] at hemp
      constructor
      · intro _ id hid
        cases hmv : regMatches t sb res use (Store.read store id) with
        | false => rfl
        | true =>
          have : id ∈ (dictValues pool).filter
              (fun id => regMatches t sb res use (Store.read store id)) :=
            List.mem_filter.mpr ⟨hid, hmv⟩
          rw [hemp] at this
          cases this
      · intro _
        rfl
    · rename_i hemp
      constructor
      · intro h
        cases h
      · intro hall
        exfalso
        have hne : (dictValues pool).filter
            (fun id => regMatches t sb res use (Store.read store id)) ≠ [] := by
          intro hnil
          exact hemp (by simp [hnil])
        rcases List.exists_mem_of_ne_nil _ hne with ⟨id, hid⟩
        have hm := List.mem_filter.mp hid
        rw [hall id hm.1] at hm
        cases hm.2
  · intro F hF id
    have hsubnodup : ((((dictValues pool).filter
          (fun id => regMatches t sb res use (Store.read store id))).map
            (fun id => (Store.read store id).name)).Nodup) :=
      List.Nodup.sublist (List.Sublist.map _ (List.filter_sublist _)) hn
    obtain ⟨hne, hFe⟩ := filter_ok_elim store pool t sb res use F hF
    subst hFe
    rw [dictValues_dictOfIds store _ hsubnodup]
    exact List.mem_filter

/-- C7, witnessed: filtering the two-register pool for non-reserved
integer registers returns exactly `x6`. -/
theorem filter_exact_spec_witness :
    PoolNamesNodup twoStore twoPool ∧
    Registers.filter twoStore twoPool (some RegisterType.X) none (some false) none
      = Except.ok [("x6", 1)] ∧
    (1 ∈ dictValues ([("x6", 1)] : Pool)
      ↔ (1 ∈ dictValues twoPool ∧
          regMatches (some RegisterType.X) none (some false) none
            (Store.read twoStore 1) = true)) :=
  ⟨by decide, rfl,
    (filter_exact_spec twoStore twoPool (some RegisterType.X) none (some false) none
      (by decide)).2 [("x6", 1)] rfl 1⟩

lemma matchOpt_merge {β : Type} [DecidableEq β] (a b : Option β) (x : β)
    (h : a = none ∨ b = none) :
    matchOpt (mergeOpt a b) x = (matchOpt a x && matchOpt b x) := by
  rcases h with h | h
  · subst h
    simp [mergeOpt, matchOpt]
  · subst h
    cases a with
    | none => simp [mergeOpt, matchOpt]
    | some y => simp [mergeOpt, matchOpt]

lemma mergeOpt_comm {β : Type} (a b : Option β) (h : a = none ∨ b = none) :
    mergeOpt a b = mergeOpt b a := by
  rcases h with h | h
  · subst h
    cases b <;> rfl
  · subst h
    cases a <;> rfl

lemma regMatches_merge (t1 t2 : Option RegisterType)
    (sb1 sb2 : Option RegisterSaveType) (res1 res2 use1 use2 : Option Bool)
    (r : Register)
    (ht : t1 = none ∨ t2 = none) (hsb : sb1 = none ∨ sb2 = none)
    (hres : res1 = none ∨ res2 = none) (huse : use1 = none ∨ use2 = none) :
    regMatches (mergeOpt t1 t2) (mergeOpt sb1 sb2) (mergeOpt res1 res2)
        (mergeOpt use1 use2) r
      = (regMatches t2 sb2 res2 use2 r && regMatches t1 sb1 res1 use1 r) := by
  unfold regMatches
  rw [matchOpt_merge _ _ _ ht, matchOpt_merge _ _ _ hsb,
      matchOpt_merge _ _ _ hres, matchOpt_merge _ _ _ huse]
  cases matchOpt t1 r.type <;> cases matchOpt t2 r.type <;>
    cases matchOpt sb1 r.saved_by <;> cases matchOpt sb2 r.saved_by <;>
    cases matchOpt res1 r.is_reserved <;> cases matchOpt res2 r.is_reserved <;>
    cases matchOpt use1 r.is_in_use <;> cases matchOpt use2 r.is_in_use <;> rfl

lemma seqFilter_eq_merged (store : Store) (pool : Pool)
    (t1 : Option RegisterType) (sb1 : Option RegisterSaveType) (res1 use1 : Option Bool)
    (t2 : Option RegisterType) (sb2 : Option RegisterSaveType) (res2 use2 : Option Bool)
    (hn : PoolNamesNodup store pool)
    (ht : t1 = none ∨ t2 = none) (hsb : sb1 = none ∨ sb2 = none)
    (hres : res1 = none ∨ res2 = none) (huse : use1 = none ∨ use2 = none) :
    seqFilter store pool t1 sb1 res1 use1 t2 sb2 res2 use2
      = Registers.filter store pool (mergeOpt t1 t2) (mergeOpt sb1 sb2)
          (mergeOpt res1 res2) (mergeOpt use1 use2) := by
  unfold seqFilter
  rw [registersFilter_eq store pool t1 sb1 res1 use1,
      registersFilter_eq store pool (mergeOpt t1 t2) (mergeOpt sb1 sb2)
        (mergeOpt res1 res2) (mergeOpt use1 use2)]
  have hSM2 : (dictValues pool).filter (fun id =>
        regMatches (mergeOpt t1 t2) (mergeOpt sb1 sb2) (mergeOpt res1 res2)
          (mergeOpt use1 use2) (Store.read store id))
      = ((dictValues pool).filter (fun id =>
          regMatches t1 sb1 res1 use1 (Store.read store id))).filter (fun id =>
            regMatches t2 sb2 res2 use2 (Store.read store id)) := by
    rw [List.filter_filter]
    apply List.filter_congr
    intro id _
    exact regMatches_merge t1 t2 sb1 sb2 res1 res2 use1 use2
      (Store.read store id) ht hsb hres huse
  by_cases hemp : ((dictValues pool).filter (fun id =>
      regMatches t1 sb1 res1 use1 (Store.read store id))).isEmpty = true
  · rw [if_pos hemp]
    have hm : ((dictValues pool).filter (fun id =>
        regMatches (mergeOpt t1 t2) (mergeOpt sb1 sb2) (mergeOpt res1 res2)
          (mergeOpt use1 use2) (Store.read store id))).isEmpty = true := by
      rw [hSM2, List.isEmpty_iff.mp hemp]
      rfl
    rw [if_pos hm]
  · rw [if_neg hemp]
    have hsubnodup : ((((dictValues pool).filter (fun id =>
          regMatches t1 sb1 res1 use1 (Store.read store id))).map
            (fun id => (Store.read store id).name)).Nodup) :=
      List.Nodup.sublist (List.Sublist.map _ (List.filter_sublist _)) hn
    simp only []
    rw [registersFilter_eq, dictValues_dictOfIds store _ hsubnodup, ← hSM2]

/-- C9: two sequential `filter` calls over independent fields equal the
single combined `filter` call, in either order (including the failure
cases: the sequence fails exactly when the combined call fails, with the
same error). -/
theorem filter_compose_comm (store : Store) (pool : Pool)
    (t1 : Option RegisterType) (sb1 : Option RegisterSaveType) (res1 use1 : Option Bool)
    (t2 : Option RegisterType) (sb2 : Option RegisterSaveType) (res2 use2 : Option Bool)
    (hn : PoolNamesNodup store pool)
    (ht : t1 = none ∨ t2 = none) (hsb : sb1 = none ∨ sb2 = none)
    (hres : res1 = none ∨ res2 = none) (huse : use1 = none ∨ use2 = none) :
    seqFilter store pool t1 sb1 res1 use1 t2 sb2 res2 use2
      = Registers.filter store pool (mergeOpt t1 t2) (mergeOpt sb1 sb2)
          (mergeOpt res1 res2) (mergeOpt use1 use2) ∧
    seqFilter store pool t2 sb2 res2 use2 t1 sb1 res1 use1
      = Registers.filter store pool (mergeOpt t1 t2) (mergeOpt sb1 sb2)
          (mergeOpt res1 res2) (mergeOpt use1 use2) := by
  constructor
  · exact seqFilter_eq_merged store pool t1 sb1 res1 use1 t2 sb2 res2 use2 hn
      ht hsb hres huse
  · rw [seqFilter_eq_merged store pool t2 sb2 res2 use2 t1 sb1 res1 use1 hn
      ht.symm hsb.symm hres.symm huse.symm,
      mergeOpt_comm t2 t1 ht.symm, mergeOpt_comm sb2 sb1 hsb.symm,
      mergeOpt_comm res2 res1 hres.symm, mergeOpt_comm use2 use1 huse.symm]

/-- C9, witnessed: filtering by bank then by reservation equals the
combined filter on the two-register pool, in either order. -/
theorem filter_compose_comm_witness :
    PoolNamesNodup twoStore twoPool ∧
    seqFilter twoStore twoPool (some RegisterType.X) none none none
        none none (some false) none
      = Registers.filter twoStore twoPool (mergeOpt (some RegisterType.X) none)
          (mergeOpt none none) (mergeOpt none (some false)) (mergeOpt none none) ∧
    seqFilter twoStore twoPool none none (some false) none
        (some RegisterType.X) none none none
      = Registers.filter twoStore twoPool (mergeOpt (some RegisterType.X) none)
          (mergeOpt none none) (mergeOpt none (some false)) (mergeOpt none none) :=
  ⟨by decide,
    (filter_compose_comm twoStore twoPool (some RegisterType.X) none none none
      none none (some false) none (by decide)
      (Or.inr rfl) (Or.inl rfl) (Or.inl rfl) (Or.inl rfl)).1,
    (filter_compose_comm twoStore twoPool (some RegisterType.X) none none none
      none none (some false) none (by decide)
      (Or.inr rfl) (Or.inl rfl) (Or.inl rfl) (Or.inl rfl)).2⟩

/-- With well-keyed entries, a pool's key list is its registers' name list. -/
lemma keys_eq_names (store : Store) (pool : Pool) (hw : PoolWellKeyed store pool) :
    pool.map Prod.fst
      = (dictValues pool).map (fun id => (Store.read store id).name) := by
  unfold dictValues
  rw [List.map_map]
  exact List.map_congr_left (fun e he => (hw e he).symm)

/-- C6: a filtered view shares exactly the parent's register records and
nothing else.  Every entry of the view is a reference drawn from the
parent's values; any name the view resolves, the parent resolves to the
*same* arena index (the same underlying record); and writing a register
record through that shared index is what any reader of the index — via
either pool — observes.  The view is itself well-keyed, so the same
argument applies to further views derived from it. -/
theorem filter_view_alias (store : Store) (pool : Pool)
    (t : Option RegisterType) (sb : Option RegisterSaveType) (res use : Option Bool)
    (F : Pool) (hw : PoolWellKeyed store pool) (hn : PoolNamesNodup store pool)
    (hF : Registers.filter store pool t sb res use = Except.ok F) :
    PoolWellKeyed store F ∧
    (∀ e ∈ F, e.2 ∈ dictValues pool) ∧
    (∀ n id, dictGet F n = some id →
      dictGet pool n = some id ∧
      (∀ r2 : Register, id < store.length →
        Store.read (store.set id r2) id = r2)) := by
  obtain ⟨hne, hFe⟩ := filter_ok_elim store pool t sb res use F hF
  have hsubnodup : ((((dictValues pool).filter (fun id =>
        regMatches t sb res use (Store.read store id))).map
          (fun id => (Store.read store id).name)).Nodup) :=
    List.Nodup.sublist (List.Sublist.map _ (List.filter_sublist _)) hn
  have hFmap : F = ((dictValues pool).filter (fun id =>
      regMatches t sb res use (Store.read store id))).map
        (fun id => ((Store.read store id).name, id)) := by
    rw [hFe]
    exact dictOfIds_eq_map store _ hsubnodup
  refine ⟨?_, ?_, ?_⟩
  · intro e he
    rw [hFmap] at he
    rcases List.mem_map.mp he with ⟨id, hid, hpair⟩
    rw [← hpair]
  · intro e he
    rw [hFmap] at he
    rcases List.mem_map.mp he with ⟨id, hid, hpair⟩
    rw [← hpair]
    exact (List.mem_filter.mp hid).1
  · intro n id hget
    have hmem : (n, id) ∈ F := mem_of_dictGet F n id hget
    rw [hFmap] at hmem
    rcases List.mem_map.mp hmem with ⟨id0, hid0, hpair⟩
    obtain ⟨hname, hid0eq⟩ : (Store.read store id0).name = n ∧ id0 = id := by
      simpa [Prod.mk.injEq] using hpair
    rw [hid0eq] at hid0 hname
    constructor
    · have hidpool : id ∈ dictValues pool := (List.mem_filter.mp hid0).1
      rcases List.mem_map.mp hidpool with ⟨e, he, hesnd⟩
      have hkey : e.1 = n := by
        rw [← hname, ← hesnd]
        exact (hw e he).symm
      have hkeysnodup : (pool.map Prod.fst).Nodup := by
        rw [keys_eq_names store pool hw]
        exact hn
      have hentry : (n, id) ∈ pool := by
        have : e = (n, id) := Prod.ext hkey hesnd
        rw [← this]
        exact he
      exact dictGet_eq_some_of_mem pool n id hkeysnodup hentry
    · intro r2 hlt
      rw [store_read_set, if_pos hlt]

/-- C6, witnessed: the non-reserved filter of the two-register pool
resolves `x6` to the same arena index as the parent, and a write through
that index is observed by any reader. -/
theorem filter_view_alias_witness :
    PoolWellKeyed twoStore twoPool ∧ PoolNamesNodup twoStore twoPool ∧
    Registers.filter twoStore twoPool none none (some false) none
      = Except.ok [("x6", 1)] ∧
    dictGet ([("x6", 1)] : Pool) "x6" = some 1 ∧
    dictGet twoPool "x6" = some 1 ∧
    Store.read (twoStore.set 1
        ⟨"x6", "t1", RegisterType.X, RegisterSaveType.Caller, true, true⟩) 1
      = ⟨"x6", "t1", RegisterType.X, RegisterSaveType.Caller, true, true⟩ :=
  ⟨by decide, by decide, rfl, rfl,
    ((filter_view_alias twoStore twoPool none none (some false) none [("x6", 1)]
      (by decide) (by decide) rfl).2.2 "x6" 1 rfl).1,
    ((filter_view_alias twoStore twoPool none none (some false) none [("x6", 1)]
      (by decide) (by decide) rfl).2.2 "x6" 1 rfl).2
      ⟨"x6", "t1", RegisterType.X, RegisterSaveType.Caller, true, true⟩ (by decide)⟩

/-- C1: `pick` computes the filtered candidate set; it never fails when
the filter succeeds, even if every candidate is in use.  On success, the
chosen register comes from the filtered set — from the unused
(`inUse=false`) subset whenever that sub-filter succeeds (i.e. the subset
is non-empty) — and is written back marked `inUse=true`, with
`reserved=true` additionally set when `markReserved` is, and `reserved`
left unchanged otherwise. -/
theorem pick_register_spec (store : Store) (pool : Pool) (eng : Eng)
    (t : Option RegisterType) (sb : Option RegisterSaveType) (res use : Option Bool)
    (reserve : Bool) :
    (∀ regs, Registers.filter store pool t sb res use = Except.ok regs →
      isOkE (Registers.pick_register store pool eng t sb res use reserve) = true) ∧
    (∀ id store2 eng2,
      Registers.pick_register store pool eng t sb res use reserve
        = Except.ok (id, store2, eng2) →
      (∀ regs, Registers.filter store pool t sb res use = Except.ok regs →
        id ∈ dictValues regs ∧
        (∀ unused,
          Registers.filter store regs none none none (some false) = Except.ok unused →
          id ∈ dictValues unused)) ∧
      store2 = store.set id (Register.markPicked (Store.read store id) reserve) ∧
      (Register.markPicked (Store.read store id) reserve).is_in_use = true ∧
      (Register.markPicked (Store.read store id) reserve).is_reserved
        = (reserve || (Store.read store id).is_reserved) ∧
      (reserve = false →
        (Register.markPicked (Store.read store id) reserve).is_reserved
          = (Store.read store id).is_reserved)) := by
  constructor
  · intro regs h
    exact pick_ok_of_filter_ok store pool eng t sb res use reserve regs h
  · intro id store2 eng2 hp
    obtain ⟨regs0, hf0, hmem0, hunused0, hst⟩ :=
      pick_ok_elim store pool eng t sb res use reserve id store2 eng2 hp
    refine ⟨?_, hst, rfl, ?_, ?_⟩
    · intro regs hf
      have hre : regs0 = regs := by
        rw [hf0] at hf
        exact (Except.ok.injEq _ _).mp hf
      rw [← hre]
      exact ⟨hmem0, hunused0⟩
    · unfold Register.markPicked
      cases reserve <;> simp
    · intro hres
      rw [hres]
      rfl

/-- C1, witnessed on a pool whose only eligible register is already in
use: the unused sub-filter fails, yet `pick` still succeeds (the
fallback), and the chosen register comes back with both flags set. -/
theorem pick_register_spec_witness :
    Registers.filter tinyStore tinyPool (some RegisterType.X) none (some false) none
      = Except.ok [("x5", 0)] ∧
    Registers.filter tinyStore [("x5", 0)] none none none (some false)
      = Except.error "No registers matching the filter were found" ∧
    isOkE (Registers.pick_register tinyStore tinyPool engZero (some RegisterType.X)
      none (some false) none true) = true :=
  ⟨rfl, rfl,
    (pick_register_spec tinyStore tinyPool engZero (some RegisterType.X) none
      (some false) none true).1 [("x5", 0)] rfl⟩

/-- C10: `pick_register`'s Python signature defaults `is_reserved` to
`False`, so a call that does not supply a reserved predicate filters on
`reserved=false`: whenever the pool holds at least one non-reserved
register of the requested bank, the pick succeeds and the returned
register's `reserved` flag is false — before the pick and still after it
(`markReserved` not being set, the flag is untouched). -/
theorem pick_default_excludes_reserved (store : Store) (pool : Pool) (eng : Eng)
    (t : Option RegisterType)
    (h : ∃ id, id ∈ dictValues pool ∧ matchOpt t (Store.read store id).type = true ∧
      (Store.read store id).is_reserved = false) :
    isOkE (Registers.pick_register store pool eng t none (some false) none false)
      = true ∧
    (∀ id store2 eng2,
      Registers.pick_register store pool eng t none (some false) none false
        = Except.ok (id, store2, eng2) →
      (Store.read store id).is_reserved = false ∧
      (Store.read store2 id).is_reserved = false) := by
  have hex : ∃ v, v ∈ dictValues pool ∧
      regMatches t none (some false) none (Store.read store v) = true := by
    rcases h with ⟨id, hid, hmt, hres⟩
    refine ⟨id, hid, ?_⟩
    unfold regMatches
    rw [hmt]
    simp [matchOpt, hres]
  have hfok := filter_ok_of_exists store pool t none (some false) none hex
  cases hf : Registers.filter store pool t none (some false) none with
  | error e =>
    rw [hf] at hfok
    simp [isOkE] at hfok
  | ok regs =>
    constructor
    · exact pick_ok_of_filter_ok store pool eng t none (some false) none false regs hf
    · intro id store2 eng2 hp
      obtain ⟨regs0, hf0, hmem0, -, hst⟩ :=
        pick_ok_elim store pool eng t none (some false) none false id store2 eng2 hp
      have hre : regs0 = regs := by
        rw [hf0] at hf
        exact (Except.ok.injEq _ _).mp hf
      rw [hre] at hmem0
      have hmatch :=
        (filter_ok_mem store pool t none (some false) none regs hf id hmem0).2
      have hresold : (Store.read store id).is_reserved = false := by
        unfold regMatches matchOpt at hmatch
        simp only [Bool.and_eq_true, decide_eq_true_eq] at hmatch
        exact hmatch.2.1
      refine ⟨hresold, ?_⟩
      rw [hst, store_read_set]
      by_cases hlt : id < store.length
      · rw [if_pos hlt]
        unfold Register.markPicked
        simpa using hresold
      · rw [if_neg hlt]
        exact hresold

/-- C10, witnessed: on the two-register pool (`x5` reserved, `x6` not), a
bank-only pick with the defaulted reserved predicate returns a
non-reserved register. -/
theorem pick_default_excludes_reserved_witness :
    (1 ∈ dictValues twoPool ∧
      matchOpt (some RegisterType.X) (Store.read twoStore 1).type = true ∧
      (Store.read twoStore 1).is_reserved = false) ∧
    isOkE (Registers.pick_register twoStore twoPool engZero (some RegisterType.X)
      none (some false) none false) = true :=
  ⟨by decide,
    (pick_default_excludes_reserved twoStore twoPool engZero (some RegisterType.X)
      ⟨1, by decide, by decide, by decide⟩).1⟩

/-- C5 amended, witnessed: a valid construction keeps name and bank. -/
theorem register_init_amended_witness :
    Register.init "x5" none RegisterType.X RegisterSaveType.Caller false false
      = Except.ok ⟨"x5", "x5", RegisterType.X, RegisterSaveType.Caller, false, false⟩ ∧
    (⟨"x5", "x5", RegisterType.X, RegisterSaveType.Caller, false, false⟩ : Register).name
      = "x5" ∧
    (⟨"x5", "x5", RegisterType.X, RegisterSaveType.Caller, false, false⟩ : Register).type
      = RegisterType.X :=
  ⟨rfl,
    ((register_init_amended "x5" none RegisterType.X RegisterSaveType.Caller false false).2.1
      _ rfl).1,
    ((register_init_amended "x5" none RegisterType.X RegisterSaveType.Caller false false).2.1
      _ rfl).2⟩

end RvGen
